import Mathlib

/-!
Verification of the hex bubble-shooter simulation core.

The source is a TypeScript game component.  Its numeric computations are over
JS numbers; we model them exactly over ℚ, and — since the vertical grid
spacing is `ROW_HEIGHT = BUBBLE_RADIUS * sqrt 3` — over the ring ℚ[√3],
represented by pairs `(a, b)` standing for `a + b·√3`.  This keeps every
definition executable while `Q3.toReal` and the lemmas below tie the
executable order/arithmetic to the real-number semantics of the source.
-/

namespace Slingshot

/-- A number `a + b·√3` with `a b : ℚ`.  Exact executable stand-in for the
real values produced by the source's position arithmetic. -/
structure Q3 where
  a : ℚ
  b : ℚ
deriving DecidableEq

def Q3.ofRat (q : ℚ) : Q3 := ⟨q, 0⟩

instance : Zero Q3 := ⟨⟨0, 0⟩⟩

instance : Add Q3 := ⟨fun x y => ⟨x.a + y.a, x.b + y.b⟩⟩

instance : Neg Q3 := ⟨fun x => ⟨-x.a, -x.b⟩⟩

instance : Sub Q3 := ⟨fun x y => ⟨x.a - y.a, x.b - y.b⟩⟩

/-- `(a + b√3)(c + d√3) = (ac + 3bd) + (ad + bc)√3`. -/
instance : Mul Q3 := ⟨fun x y => ⟨x.a * y.a + 3 * x.b * y.b, x.a * y.b + x.b * y.a⟩⟩

/-- Decides `0 ≤ a + b·√3` by sign analysis and squaring. -/
def Q3.nonnegB (x : Q3) : Bool :=
  if 0 ≤ x.b then decide (0 ≤ x.a) || decide (x.a ^ 2 ≤ 3 * x.b ^ 2)
  else decide (0 ≤ x.a) && decide (3 * x.b ^ 2 ≤ x.a ^ 2)

instance : LE Q3 := ⟨fun x y => (y - x).nonnegB = true⟩

instance : LT Q3 := ⟨fun x y => ¬ y ≤ x⟩

instance (x y : Q3) : Decidable (x ≤ y) :=
  inferInstanceAs (Decidable ((y - x).nonnegB = true))

instance (x y : Q3) : Decidable (x < y) :=
  inferInstanceAs (Decidable (¬ y ≤ x))

/-- JS `Math.max` on our exact reals. -/
def Q3.max (x y : Q3) : Q3 := if x ≤ y then y else x

/-- Semantics: the real number denoted by a `Q3` value. -/
noncomputable def Q3.toReal (x : Q3) : ℝ := (x.a : ℝ) + (x.b : ℝ) * Real.sqrt 3

theorem Q3.toReal_ofRat (q : ℚ) : (Q3.ofRat q).toReal = (q : ℝ) := by
  simp [Q3.toReal, Q3.ofRat]

theorem Q3.toReal_zero : (0 : Q3).toReal = 0 := by
  show ((0 : ℚ) : ℝ) + ((0 : ℚ) : ℝ) * Real.sqrt 3 = 0
  simp

theorem Q3.toReal_add (x y : Q3) : (x + y).toReal = x.toReal + y.toReal := by
  show ((x.a + y.a : ℚ) : ℝ) + ((x.b + y.b : ℚ) : ℝ) * Real.sqrt 3 = _
  push_cast
  unfold Q3.toReal
  ring

theorem Q3.toReal_sub (x y : Q3) : (x - y).toReal = x.toReal - y.toReal := by
  show ((x.a - y.a : ℚ) : ℝ) + ((x.b - y.b : ℚ) : ℝ) * Real.sqrt 3 = _
  push_cast
  unfold Q3.toReal
  ring

theorem Q3.toReal_mul (x y : Q3) : (x * y).toReal = x.toReal * y.toReal := by
  have h3 : Real.sqrt 3 * Real.sqrt 3 = 3 := Real.mul_self_sqrt (by norm_num)
  show ((x.a * y.a + 3 * x.b * y.b : ℚ) : ℝ) + ((x.a * y.b + x.b * y.a : ℚ) : ℝ) * Real.sqrt 3 = _
  push_cast
  unfold Q3.toReal
  linear_combination (-(x.b : ℝ) * (y.b : ℝ)) * h3

theorem Q3.nonnegB_iff (x : Q3) : x.nonnegB = true ↔ 0 ≤ x.toReal := by
  have h3 : Real.sqrt 3 * Real.sqrt 3 = 3 := Real.mul_self_sqrt (by norm_num)
  have h3n : (0:ℝ) ≤ Real.sqrt 3 := Real.sqrt_nonneg 3
  unfold Q3.nonnegB Q3.toReal
  split_ifs with hb
  · have hb' : (0:ℝ) ≤ (x.b : ℝ) := by exact_mod_cast hb
    simp only [Bool.or_eq_true, decide_eq_true_eq]
    constructor
    · rintro (h | h)
      · have h' : (0:ℝ) ≤ (x.a : ℝ) := by exact_mod_cast h
        nlinarith [mul_nonneg hb' h3n]
      · have h' : ((x.a : ℝ)) ^ 2 ≤ 3 * ((x.b : ℝ)) ^ 2 := by exact_mod_cast h
        nlinarith [mul_nonneg hb' h3n, sq_nonneg ((x.a : ℝ) - (x.b : ℝ) * Real.sqrt 3)]
    · intro h
      by_cases ha : (0:ℚ) ≤ x.a
      · exact Or.inl ha
      · refine Or.inr ?_
        have ha' : (x.a : ℝ) < 0 := by exact_mod_cast not_le.mp ha
        have key : ((x.a : ℝ)) ^ 2 ≤ 3 * ((x.b : ℝ)) ^ 2 := by
          nlinarith [mul_nonneg hb' h3n]
        exact_mod_cast key
  · have hb' : (x.b : ℝ) < 0 := by exact_mod_cast not_le.mp hb
    simp only [Bool.and_eq_true, decide_eq_true_eq]
    constructor
    · rintro ⟨ha, h⟩
      have ha' : (0:ℝ) ≤ (x.a : ℝ) := by exact_mod_cast ha
      have h' : 3 * ((x.b : ℝ)) ^ 2 ≤ ((x.a : ℝ)) ^ 2 := by exact_mod_cast h
      nlinarith [mul_nonneg (neg_nonneg.mpr (le_of_lt hb')) h3n]
    · intro h
      have ha' : (0:ℝ) ≤ (x.a : ℝ) := by nlinarith [mul_pos (neg_pos.mpr hb') (Real.sqrt_pos.mpr (by norm_num : (0:ℝ) < 3))]
      have key : 3 * ((x.b : ℝ)) ^ 2 ≤ ((x.a : ℝ)) ^ 2 := by
        nlinarith [mul_nonneg (neg_nonneg.mpr (le_of_lt hb')) h3n]
      exact ⟨by exact_mod_cast ha', by exact_mod_cast key⟩

theorem Q3.le_iff (x y : Q3) : x ≤ y ↔ x.toReal ≤ y.toReal := by
  have : x ≤ y ↔ (y - x).nonnegB = true := Iff.rfl
  rw [this, Q3.nonnegB_iff, Q3.toReal_sub]
  constructor <;> intro h <;> linarith

theorem Q3.lt_iff (x y : Q3) : x < y ↔ x.toReal < y.toReal := by
  have : x < y ↔ ¬ y ≤ x := Iff.rfl
  rw [this, Q3.le_iff]
  exact not_le

theorem Q3.toReal_max (x y : Q3) : (Q3.max x y).toReal = Max.max x.toReal y.toReal := by
  unfold Q3.max
  split_ifs with h
  · rw [Q3.le_iff] at h
    exact (max_eq_right h).symm
  · rw [Q3.le_iff] at h
    exact (max_eq_left (le_of_not_le h)).symm

/-! ## Constants of the source (`const` declarations at the top of the component) -/

def BUBBLE_RADIUS : ℚ := 22

def GRID_COLS : ℕ := 12

def SLINGSHOT_BOTTOM_OFFSET : ℚ := 220

def MAX_DRAG_DIST : ℚ := 180

def MIN_FORCE_MULT : ℚ := 3 / 20

def MAX_FORCE_MULT : ℚ := 9 / 20

/-- The fixed palette `COLOR_KEYS` of the source. -/
inductive Color where
  | red
  | blue
  | green
  | yellow
  | purple
  | orange
deriving DecidableEq

/-- `COLOR_CONFIG[·].points`. -/
def Color.points : Color → ℤ
  | .red => 100
  | .blue => 150
  | .green => 200
  | .yellow => 250
  | .purple => 300
  | .orange => 500

/-- A grid bubble.  The source's string id (`${r}-${c}-${Date.now()}`) is
modelled by a natural number; ids are distinct in every state the game
builds, which the model realizes by drawing them from a counter. -/
structure Bubble where
  id : ℕ
  row : ℤ
  col : ℤ
  x : Q3
  y : Q3
  color : Color
  active : Bool
deriving DecidableEq

/-- The grid-world state mutated by the simulation core (`bubbles`,
`scoreRef`, `isGameOver`, plus the canvas size that fixes the anchor).
The projectile is modelled separately (see `Proj`). -/
structure GameState where
  bubbles : List Bubble
  score : ℤ
  gameOver : Bool
  nextId : ℕ
  width : ℚ
  height : ℚ
deriving DecidableEq

/-- `anchorPos.current = { x: canvas.width / 2, y: canvas.height - SLINGSHOT_BOTTOM_OFFSET }`. -/
def anchorX (s : GameState) : ℚ := s.width / 2

def anchorY (s : GameState) : ℚ := s.height - SLINGSHOT_BOTTOM_OFFSET

/-- `getBubblePos`: cell→pixel.  `y = BUBBLE_RADIUS + row * ROW_HEIGHT` with
`ROW_HEIGHT = BUBBLE_RADIUS * sqrt 3` is represented exactly as the `Q3`
value `⟨BUBBLE_RADIUS, BUBBLE_RADIUS * row⟩`. -/
def getBubblePos (row col : ℤ) (width : ℚ) : Q3 × Q3 :=
  let xOffset : ℚ := (width - ((GRID_COLS : ℚ) * (BUBBLE_RADIUS * 2))) / 2 + BUBBLE_RADIUS
  let x : ℚ := xOffset + (col : ℚ) * (BUBBLE_RADIUS * 2) + (if row % 2 ≠ 0 then BUBBLE_RADIUS else 0)
  (Q3.ofRat x, ⟨BUBBLE_RADIUS, BUBBLE_RADIUS * (row : ℚ)⟩)

/-- `initGrid`: populates rows `0..3`; odd rows one column short.  The calls
`Math.random() > gapChance` and the random color draw are modelled by the
oracles `present` and `pick` supplied per cell. -/
def initGrid (width height : ℚ) (present : ℕ → ℕ → Bool) (pick : ℕ → ℕ → Color) : GameState :=
  { bubbles :=
      (List.range 4).flatMap (fun r =>
        (List.range (if r % 2 ≠ 0 then GRID_COLS - 1 else GRID_COLS)).filterMap (fun c =>
          if present r c then
            some { id := r * GRID_COLS + c, row := (r : ℤ), col := (c : ℤ),
                   x := (getBubblePos r c width).1, y := (getBubblePos r c width).2,
                   color := pick r c, active := true }
          else none)),
    score := 0, gameOver := false, nextId := 4 * GRID_COLS,
    width := width, height := height }

/-- The per-bubble mutation of `dropCeiling` step 1: `b.row += 1` and the
pixel position is recomputed from the new row. -/
def shiftBubble (width : ℚ) (b : Bubble) : Bubble :=
  { b with row := b.row + 1,
           x := (getBubblePos (b.row + 1) b.col width).1,
           y := (getBubblePos (b.row + 1) b.col width).2 }

/-- `dropCeiling`: shift all bubbles down one row, prepend a full new row 0
(always `GRID_COLS` columns), then check game over with
`lowestBubble = bubbles.reduce((max, b) => Math.max(max, b.y), 0)` —
note the source does NOT restrict this reduce to active bubbles. -/
def dropCeiling (pick : ℕ → Color) (s : GameState) : GameState :=
  let shifted := s.bubbles.map (shiftBubble s.width)
  let newRow := (List.range GRID_COLS).map (fun c =>
      { id := s.nextId + c, row := 0, col := (c : ℤ),
        x := (getBubblePos 0 c s.width).1, y := (getBubblePos 0 c s.width).2,
        color := pick c, active := true : Bubble })
  let bubbles2 := newRow ++ shifted
  let dangerY := Q3.ofRat (anchorY s - 150)
  let lowestBubble := bubbles2.foldl (fun m b => Q3.max m b.y) (Q3.ofRat 0)
  { s with bubbles := bubbles2, nextId := s.nextId + GRID_COLS,
           gameOver := if dangerY < lowestBubble then true else s.gameOver }

/-- `isNeighbor`: offset-hex adjacency, with the column rule read off the
parity of `a`'s row. -/
def isNeighbor (a b : Bubble) : Bool :=
  let dr := b.row - a.row
  let dc := b.col - a.col
  if 1 < dr.natAbs then false
  else if dr = 0 then dc.natAbs == 1
  else if a.row % 2 ≠ 0 then dc == 0 || dc == 1
  else dc == -1 || dc == 0

/-! ## Landing resolution (the collision branch of the game loop) -/

/-- The bounded scan window of the landing search: rows `0 ≤ r < gridRows + 5`
with `gridRows = 8`, odd rows one column short. -/
def windowCells : List (ℤ × ℤ) :=
  (List.range 13).flatMap (fun r =>
    (List.range (if r % 2 ≠ 0 then GRID_COLS - 1 else GRID_COLS)).map
      (fun c => (Int.ofNat r, Int.ofNat c)))

/-- `bubbles.current.some(b => b.active && b.row === r && b.col === c)`. -/
def cellOccupied (s : GameState) (r c : ℤ) : Bool :=
  s.bubbles.any (fun b => b.active && b.row == r && b.col == c)

def distSqQ (px py qx qy : Q3) : Q3 :=
  (px - qx) * (px - qx) + (py - qy) * (py - qy)

/-- One candidate of the landing search (`bestDist/bestRow/bestCol/bestX/bestY`);
distances are kept squared (the source compares `Math.sqrt` values, and
`sqrt` is strictly monotone on nonnegatives, so the comparisons agree). -/
structure LandCand where
  distSq : Q3
  row : ℤ
  col : ℤ
  x : Q3
  y : Q3
deriving DecidableEq

/-- The landing-cell scan: over all cells of the window, skip occupied cells,
keep the nearest empty cell.  `bestDist = Infinity` (no candidate yet) is
modelled by `none`. -/
def findLandingCell (s : GameState) (ballX ballY : Q3) : Option LandCand :=
  windowCells.foldl (fun best rc =>
    if cellOccupied s rc.1 rc.2 then best
    else
      let p := getBubblePos rc.1 rc.2 s.width
      let d := distSqQ ballX ballY p.1 p.2
      match best with
      | none => some ⟨d, rc.1, rc.2, p.1, p.2⟩
      | some bst => if d < bst.distSq then some ⟨d, rc.1, rc.2, p.1, p.2⟩ else some bst) none

/-- Build and push the landed bubble.  When the scan found no empty cell
(`none`), the source's `bestRow/bestCol/bestX/bestY` keep their initial
values `0`, and the bubble is pushed regardless. -/
def pushLanded (s : GameState) (ballX ballY : Q3) (color : Color) : GameState × Bubble :=
  let best : LandCand :=
    match findLandingCell s ballX ballY with
    | some c => c
    | none => ⟨Q3.ofRat 0, 0, 0, Q3.ofRat 0, Q3.ofRat 0⟩
  let nb : Bubble := { id := s.nextId, row := best.row, col := best.col,
                       x := best.x, y := best.y, color := color, active := true }
  ({ s with bubbles := s.bubbles ++ [nb], nextId := s.nextId + 1 }, nb)

/-! ## Projectile release (`Aiming → Flying` transition of the state machine) -/

/-- The one projectile: position, velocity, flying flag. -/
structure Proj where
  px : ℚ
  py : ℚ
  vx : ℚ
  vy : ℚ
  flying : Bool
deriving DecidableEq

/-- Trigger release (source lines computing `stretchDist` and branching on
`stretchDist > 30`).  The source computes `stretchDist = sqrt(dx^2+dy^2)`,
compares it with `30`, forms `powerRatio = min(stretchDist/MAX_DRAG_DIST, 1)`
and uses only `powerRatio * powerRatio`.  Since `stretchDist ≥ 0`,
`stretchDist > 30 ↔ dx^2+dy^2 > 900` and
`(min(stretchDist/180, 1))^2 = min((dx^2+dy^2)/180^2, 1)`, so the function
stays inside ℚ; the accompanying theorems restate it through a real
`d = sqrt(dx^2+dy^2)`. -/
def releaseShot (ax ay : ℚ) (p : Proj) : Proj :=
  let dx := ax - p.px
  let dy := ay - p.py
  let stretchSq := dx ^ 2 + dy ^ 2
  if 30 ^ 2 < stretchSq then
    let powerRatioSq := min (stretchSq / MAX_DRAG_DIST ^ 2) 1
    let velocityMultiplier := MIN_FORCE_MULT + (MAX_FORCE_MULT - MIN_FORCE_MULT) * powerRatioSq
    { p with vx := dx * velocityMultiplier, vy := dy * velocityMultiplier, flying := true }
  else
    { p with px := ax, py := ay, flying := false }

/-! ## Match resolution `checkMatches` (flood fill over `isNeighbor`) -/

/-- Number of bubble ids that the flood fill may still visit; termination
measure of `floodLoop`. -/
def idsOutside (toCheck lst : List Bubble) (visited : List ℕ) : ℕ :=
  (((toCheck.map Bubble.id).toFinset ∪ (lst.map Bubble.id).toFinset) \ visited.toFinset).card

theorem idsOutside_cons_of_mem (c : Bubble) (t lst : List Bubble) (visited : List ℕ)
    (hc : c.id ∈ visited) : idsOutside (c :: t) lst visited = idsOutside t lst visited := by
  unfold idsOutside
  congr 1
  ext i
  simp only [Finset.mem_sdiff, Finset.mem_union, List.mem_toFinset, List.map_cons,
    List.mem_cons]
  constructor
  · rintro ⟨hin, hnv⟩
    refine ⟨?_, hnv⟩
    rcases hin with (hi | hi) | hi
    · exact absurd (hi ▸ hc) hnv
    · exact Or.inl hi
    · exact Or.inr hi
  · rintro ⟨hin, hnv⟩
    exact ⟨by tauto, hnv⟩

theorem idsOutside_lt (c : Bubble) (t' t lst : List Bubble) (visited : List ℕ)
    (hsub : ∀ i ∈ t'.map Bubble.id, i ∈ t.map Bubble.id ∨ i ∈ lst.map Bubble.id)
    (hc : c.id ∉ visited) :
    idsOutside t' lst (c.id :: visited) < idsOutside (c :: t) lst visited := by
  unfold idsOutside
  apply Finset.card_lt_card
  have hsubset : ((t'.map Bubble.id).toFinset ∪ (lst.map Bubble.id).toFinset) \
      (c.id :: visited).toFinset ⊆
      (((c :: t).map Bubble.id).toFinset ∪ (lst.map Bubble.id).toFinset) \ visited.toFinset := by
    intro i hi
    simp only [Finset.mem_sdiff, Finset.mem_union, List.mem_toFinset, List.toFinset_cons,
      Finset.mem_insert, List.map_cons, List.mem_cons] at hi ⊢
    rcases hi with ⟨hin, hnv⟩
    push_neg at hnv
    refine ⟨?_, hnv.2⟩
    rcases hin with hi | hi
    · rcases hsub i hi with h | h
      · exact Or.inl (Or.inr h)
      · exact Or.inr h
    · exact Or.inr hi
  rw [Finset.ssubset_iff_of_subset hsubset]
  refine ⟨c.id, ?_, ?_⟩
  · simp [hc]
  · simp

/-- The `while (toCheck.length > 0)` loop of `checkMatches`.  The JS array is
a stack (`pop` from the end, `push(...neighbors)` appends), modelled with the
stack top at the list head, so pushing appends `neighbors.reverse` in front.
`visited.add(current.id)` happens before the color test, and neighbors of any
color are pushed — only same-colored ones ever reach `matches`. -/
def floodLoop (lst : List Bubble) (targetColor : Color) :
    List Bubble → List ℕ → List Bubble → List ℕ × List Bubble
  | [], visited, found => (visited, found)
  | current :: rest, visited, found =>
    if current.id ∈ visited then
      floodLoop lst targetColor rest visited found
    else
      if current.color = targetColor then
        let neighbors := lst.filter (fun b =>
          b.active && !(decide (b.id ∈ current.id :: visited)) && isNeighbor current b)
        floodLoop lst targetColor (neighbors.reverse ++ rest) (current.id :: visited)
          (found ++ [current])
      else
        floodLoop lst targetColor rest (current.id :: visited) found
termination_by toCheck visited found => (idsOutside toCheck lst visited, toCheck.length)
decreasing_by
· simp_wf
  rw [idsOutside_cons_of_mem current rest lst visited (by assumption)]
  exact Prod.Lex.right _ (Nat.lt_succ_self _)
· simp_wf
  apply Prod.Lex.left
  apply idsOutside_lt current _ rest lst visited ?_ (by assumption)
  intro i hi
  simp only [List.map_append, List.map_reverse, List.mem_append, List.mem_reverse] at hi
  rcases hi with hi | hi
  · rcases List.mem_map.mp hi with ⟨b, hb, hid⟩
    exact Or.inr (List.mem_map.mpr ⟨b, (List.mem_filter.mp hb).1, hid⟩)
  · exact Or.inl hi
· simp_wf
  apply Prod.Lex.left
  exact idsOutside_lt current rest rest lst visited (fun i hi => Or.inl hi) (by assumption)

/-- One step of same-color adjacency used by the match engine: `y` is an
active bubble of the field with the target color neighboring `x`. -/
def adjStep (lst : List Bubble) (c : Color) (x y : Bubble) : Prop :=
  y ∈ lst ∧ y.active = true ∧ y.color = c ∧ isNeighbor x y = true

/-- `b` is in the connected same-color component of `seed`: reachable from
the seed by `isNeighbor` steps through active bubbles of the seed's color. -/
def Conn (lst : List Bubble) (seed : Bubble) (b : Bubble) : Prop :=
  Relation.ReflTransGen (adjStep lst seed.color) seed b

theorem eq_of_id_eq (lst : List Bubble) (hnd : (lst.map Bubble.id).Nodup)
    (b b2 : Bubble) (hb : b ∈ lst) (hb2 : b2 ∈ lst) (hid : b.id = b2.id) : b = b2 :=
  List.inj_on_of_nodup_map hnd hb hb2 hid

/-- Master invariant of the flood-fill loop.  On any call whose arguments
satisfy the stated invariants, the final visited/matched pair is sound
(everything matched is a connected same-color field bubble), duplicate-free,
closed under active neighbors, and accounts for every visited same-color id. -/
theorem floodLoop_invariant (lst : List Bubble) (seed : Bubble)
    (hnd : (lst.map Bubble.id).Nodup)
    (toCheck : List Bubble) (visited : List ℕ) (found : List Bubble) :
    (∀ b ∈ toCheck, b ∈ lst) →
    (∀ b ∈ toCheck, b = seed ∨ (b.active = true ∧
        ∃ x, Conn lst seed x ∧ x.color = seed.color ∧ isNeighbor x b = true)) →
    (∀ b ∈ found, b ∈ lst ∧ b.color = seed.color ∧ Conn lst seed b ∧ b.id ∈ visited) →
    (found.map Bubble.id).Nodup →
    (∀ b ∈ found, ∀ y ∈ lst, y.active = true → isNeighbor b y = true →
        y.id ∈ visited ∨ y ∈ toCheck) →
    (∀ b ∈ lst, b.color = seed.color → b.id ∈ visited → b.id ∈ found.map Bubble.id) →
    ((∀ b ∈ (floodLoop lst seed.color toCheck visited found).2,
        b ∈ lst ∧ b.color = seed.color ∧ Conn lst seed b
          ∧ b.id ∈ (floodLoop lst seed.color toCheck visited found).1)
      ∧ ((floodLoop lst seed.color toCheck visited found).2.map Bubble.id).Nodup
      ∧ (∀ b ∈ (floodLoop lst seed.color toCheck visited found).2, ∀ y ∈ lst,
          y.active = true → isNeighbor b y = true →
          y.id ∈ (floodLoop lst seed.color toCheck visited found).1)
      ∧ (∀ b ∈ lst, b.color = seed.color →
          b.id ∈ (floodLoop lst seed.color toCheck visited found).1 →
          b.id ∈ (floodLoop lst seed.color toCheck visited found).2.map Bubble.id)
      ∧ (∀ i ∈ visited, i ∈ (floodLoop lst seed.color toCheck visited found).1)
      ∧ (∀ b ∈ toCheck, b.id ∈ (floodLoop lst seed.color toCheck visited found).1)
      ∧ (∃ ext, (floodLoop lst seed.color toCheck visited found).2 = found ++ ext)) := by
  induction toCheck, visited, found using floodLoop.induct lst seed.color with
  | case1 visited found =>
    intro h1 h2 h3 h4 h5 h6
    rw [floodLoop]
    refine ⟨fun b hb => h3 b hb, h4, ?_, h6, fun i hi => hi, fun b hb => absurd hb (List.not_mem_nil b), [], by simp⟩
    intro b hb y hy hact hnb
    rcases h5 b hb y hy hact hnb with h | h
    · exact h
    · cases h
  | case2 current rest visited found hmem ih =>
    intro h1 h2 h3 h4 h5 h6
    rw [floodLoop]
    simp only [if_pos hmem]
    have res := ih (fun b hb => h1 b (List.mem_cons_of_mem _ hb))
      (fun b hb => h2 b (List.mem_cons_of_mem _ hb))
      h3 h4
      (fun b hb y hy hact hnb => by
        rcases h5 b hb y hy hact hnb with h | h
        · exact Or.inl h
        · rcases List.mem_cons.mp h with h | h
          · exact Or.inl (h ▸ hmem)
          · exact Or.inr h)
      h6
    obtain ⟨r1, r2, r3, r4, r5, r6, r7⟩ := res
    refine ⟨r1, r2, r3, r4, r5, ?_, r7⟩
    intro b hb
    rcases List.mem_cons.mp hb with h | h
    · rw [h]
      exact r5 current.id hmem
    · exact r6 b h
  | case3 current rest visited found hfresh hcol neighbors ih =>
    intro h1 h2 h3 h4 h5 h6
    rw [floodLoop]
    simp only [if_neg hfresh, if_pos hcol]
    have hcur_lst : current ∈ lst := h1 current (List.mem_cons_self _ _)
    have hcurConn : Conn lst seed current := by
      rcases h2 current (List.mem_cons_self _ _) with h | ⟨hact, x, hx, hxc, hnb⟩
      · exact h ▸ Relation.ReflTransGen.refl
      · exact hx.tail ⟨hcur_lst, hact, hcol, hnb⟩
    have hfoundfresh : current.id ∉ found.map Bubble.id := by
      intro hin
      rcases List.mem_map.mp hin with ⟨b, hb, hid⟩
      exact hfresh (hid ▸ (h3 b hb).2.2.2)
    have res := ih
      (by
        intro b hb
        rcases List.mem_append.mp hb with h | h
        · exact (List.mem_filter.mp (List.mem_reverse.mp h)).1
        · exact h1 b (List.mem_cons_of_mem _ h))
      (by
        intro b hb
        rcases List.mem_append.mp hb with h | h
        · have hf := List.mem_filter.mp (List.mem_reverse.mp h)
          have hprops := hf.2
          simp only [Bool.and_eq_true, Bool.not_eq_true', decide_eq_false_iff_not] at hprops
          exact Or.inr ⟨hprops.1.1, current, hcurConn, hcol, hprops.2⟩
        · exact h2 b (List.mem_cons_of_mem _ h))
      (by
        intro b hb
        rcases List.mem_append.mp hb with h | h
        · obtain ⟨hl, hc2, hconn, hv⟩ := h3 b h
          exact ⟨hl, hc2, hconn, List.mem_cons_of_mem _ hv⟩
        · rw [List.mem_singleton.mp h]
          exact ⟨hcur_lst, hcol, hcurConn, (List.mem_cons_self _ _)⟩)
      (by
        rw [List.map_append]
        simp only [List.map_cons, List.map_nil]
        rw [List.nodup_append]
        refine ⟨h4, List.nodup_singleton _, ?_⟩
        intro a ha hb
        rw [List.mem_singleton.mp hb] at ha
        exact hfoundfresh ha)
      (by
        intro b hb y hy hact hnb
        rcases List.mem_append.mp hb with h | h
        · rcases h5 b h y hy hact hnb with hv | ht
          · exact Or.inl (List.mem_cons_of_mem _ hv)
          · rcases List.mem_cons.mp ht with hcur | hrest
            · exact Or.inl (hcur ▸ (List.mem_cons_self _ _))
            · exact Or.inr (List.mem_append_right _ hrest)
        · have hnb2 : isNeighbor current y = true := by
            rw [← List.mem_singleton.mp h]
            exact hnb
          by_cases hyv : y.id ∈ current.id :: visited
          · exact Or.inl hyv
          · refine Or.inr (List.mem_append_left _ (List.mem_reverse.mpr
              (List.mem_filter.mpr ⟨hy, ?_⟩)))
            simp only [Bool.and_eq_true, Bool.not_eq_true', decide_eq_false_iff_not]
            exact ⟨⟨hact, hyv⟩, hnb2⟩)
      (by
        intro b hb hc2 hv
        rcases List.mem_cons.mp hv with hid | hv
        · have : b = current := eq_of_id_eq lst hnd b current hb hcur_lst hid
          rw [List.map_append]
          exact List.mem_append_right _ (by simp [this, hid])
        · rw [List.map_append]
          exact List.mem_append_left _ (h6 b hb hc2 hv))
    obtain ⟨r1, r2, r3, r4, r5, r6, r7⟩ := res
    refine ⟨r1, r2, r3, r4,
      fun i hi => r5 i (List.mem_cons_of_mem _ hi), ?_, ?_⟩
    · intro b hb
      rcases List.mem_cons.mp hb with h | h
      · rw [h]
        exact r5 current.id (List.mem_cons_self _ _)
      · exact r6 b (List.mem_append_right _ h)
    · obtain ⟨ext, hext⟩ := r7
      exact ⟨current :: ext, by rw [hext, List.append_assoc, List.singleton_append]⟩
  | case4 current rest visited found hfresh hcol ih =>
    intro h1 h2 h3 h4 h5 h6
    rw [floodLoop]
    simp only [if_neg hfresh, if_neg hcol]
    have hcur_lst : current ∈ lst := h1 current (List.mem_cons_self _ _)
    have res := ih (fun b hb => h1 b (List.mem_cons_of_mem _ hb))
      (fun b hb => h2 b (List.mem_cons_of_mem _ hb))
      (by
        intro b hb
        obtain ⟨hl, hc2, hconn, hv⟩ := h3 b hb
        exact ⟨hl, hc2, hconn, List.mem_cons_of_mem _ hv⟩)
      h4
      (by
        intro b hb y hy hact hnb
        rcases h5 b hb y hy hact hnb with hv | ht
        · exact Or.inl (List.mem_cons_of_mem _ hv)
        · rcases List.mem_cons.mp ht with hcur | hrest
          · exact Or.inl (hcur ▸ (List.mem_cons_self _ _))
          · exact Or.inr hrest)
      (by
        intro b hb hc2 hv
        rcases List.mem_cons.mp hv with hid | hv
        · have : b = current := eq_of_id_eq lst hnd b current hb hcur_lst hid
          exact absurd (this ▸ hc2) hcol
        · exact h6 b hb hc2 hv)
    obtain ⟨r1, r2, r3, r4, r5, r6, r7⟩ := res
    refine ⟨r1, r2, r3, r4,
      fun i hi => r5 i (List.mem_cons_of_mem _ hi), ?_, r7⟩
    intro b hb
    rcases List.mem_cons.mp hb with h | h
    · rw [h]
      exact r5 current.id (List.mem_cons_self _ _)
    · exact r6 b h

/-- The matched list of the flood fill started at a seed of the field is
exactly the connected same-color component of the seed, without duplicates. -/
theorem floodLoop_matches (lst : List Bubble) (seed : Bubble)
    (hseed : seed ∈ lst) (hnd : (lst.map Bubble.id).Nodup) :
    (∀ b, b ∈ (floodLoop lst seed.color [seed] [] []).2 ↔ b ∈ lst ∧ Conn lst seed b)
    ∧ ((floodLoop lst seed.color [seed] [] []).2.map Bubble.id).Nodup := by
  have inv := floodLoop_invariant lst seed hnd [seed] [] []
    (by
      intro b hb
      rw [List.mem_singleton.mp hb]
      exact hseed)
    (by
      intro b hb
      exact Or.inl (List.mem_singleton.mp hb))
    (by intro b hb; cases hb)
    (by simp)
    (by intro b hb; cases hb)
    (by intro b hb hc hv; cases hv)
  obtain ⟨r1, r2, r3, r4, r5, r6, r7⟩ := inv
  have idmem : ∀ b ∈ lst,
      b.id ∈ (floodLoop lst seed.color [seed] [] []).2.map Bubble.id →
      b ∈ (floodLoop lst seed.color [seed] [] []).2 := by
    intro b hbl hid
    rcases List.mem_map.mp hid with ⟨b2, hb2, hbid⟩
    have hb2l : b2 ∈ lst := (r1 b2 hb2).1
    rw [← eq_of_id_eq lst hnd b2 b hb2l hbl hbid]
    exact hb2
  refine ⟨?_, r2⟩
  intro b
  constructor
  · intro hb
    exact ⟨(r1 b hb).1, (r1 b hb).2.2.1⟩
  · rintro ⟨hbl, hconn⟩
    revert hbl
    unfold Conn at hconn
    induction hconn with
    | refl =>
      intro _
      exact idmem seed hseed (r4 seed hseed rfl (r6 seed (List.mem_singleton.mpr rfl)))
    | @tail x y hpath step ih =>
      intro hbl
      obtain ⟨hbl2, hbact, hbcol, hbnb⟩ := step
      have hxl : x ∈ lst := by
        rcases hpath.cases_tail with heq | ⟨c, _, hstep⟩
        · rw [heq]
          exact hseed
        · exact hstep.1
      have hxfound := ih hxl
      have hidv := r3 x hxfound y hbl hbact hbnb
      exact idmem y hbl (r4 y hbl hbcol hidv)

/-- `checkMatches(startBubble)`: flood fill from the seed, pop when the
matched set has size ≥ 3 and add `Math.floor(n * basePoints * multiplier)`
to the score, `multiplier = 1.5` when `n > 3` else `1.0`.  (The source's
particle explosions and sounds are presentation only and not modelled.) -/
def checkMatches (s : GameState) (startBubble : Bubble) : GameState × Bool :=
  let res := floodLoop s.bubbles startBubble.color [startBubble] [] []
  let found := res.2
  if 3 ≤ found.length then
    ({ s with
        bubbles := s.bubbles.map (fun b =>
          if b.id ∈ found.map Bubble.id then { b with active := false } else b),
        score := s.score + Int.floor (((found.length : ℚ) * (startBubble.color.points : ℚ)) *
          (if 3 < found.length then 3 / 2 else 1)) }, true)
  else (s, false)

/-- On a matched component of size ≥ 3, `checkMatches` pops it and scores. -/
theorem checkMatches_eq_of_ge (s : GameState) (seed : Bubble)
    (h3 : 3 ≤ (floodLoop s.bubbles seed.color [seed] [] []).2.length) :
    checkMatches s seed =
      ({ s with
          bubbles := s.bubbles.map (fun b =>
            if b.id ∈ (floodLoop s.bubbles seed.color [seed] [] []).2.map Bubble.id
            then { b with active := false } else b),
          score := s.score + Int.floor
            ((((floodLoop s.bubbles seed.color [seed] [] []).2.length : ℚ)
              * (seed.color.points : ℚ))
              * (if 3 < (floodLoop s.bubbles seed.color [seed] [] []).2.length
                 then 3 / 2 else 1)) }, true) := by
  unfold checkMatches
  dsimp only
  rw [if_pos h3]

/-- On a matched set smaller than 3, `checkMatches` changes nothing and
returns `false`. -/
theorem checkMatches_eq_of_lt (s : GameState) (seed : Bubble)
    (h3 : (floodLoop s.bubbles seed.color [seed] [] []).2.length < 3) :
    checkMatches s seed = (s, false) := by
  unfold checkMatches
  dsimp only
  rw [if_neg (by omega)]

theorem length_le_one_of_nodup_const {l : List ℕ} (a : ℕ) (hnd : l.Nodup)
    (hall : ∀ x ∈ l, x = a) : l.length ≤ 1 := by
  match l with
  | [] => simp
  | [x] => simp
  | x :: y :: t =>
    exfalso
    have hx := hall x (List.mem_cons_self _ _)
    have hy := hall y (List.mem_cons_of_mem _ (List.mem_cons_self _ _))
    rw [List.nodup_cons] at hnd
    exact hnd.1 (by rw [hx, hy]; exact List.mem_cons_self _ _)

/-- If no other bubble of the field shares the seed's color, the match
resolution is a no-op returning `false`. -/
theorem checkMatches_no_other (s : GameState) (seed : Bubble)
    (hseed : seed ∈ s.bubbles) (hnd : (s.bubbles.map Bubble.id).Nodup)
    (hno : ∀ b ∈ s.bubbles, b.color = seed.color → b.id = seed.id) :
    checkMatches s seed = (s, false) := by
  obtain ⟨hiff, hfnd⟩ := floodLoop_matches s.bubbles seed hseed hnd
  apply checkMatches_eq_of_lt
  have hlen : ((floodLoop s.bubbles seed.color [seed] [] []).2.map Bubble.id).length ≤ 1 := by
    apply length_le_one_of_nodup_const seed.id hfnd
    intro x hx
    rcases List.mem_map.mp hx with ⟨b, hb, hbid⟩
    obtain ⟨hbl, hconn⟩ := (hiff b).mp hb
    have hbcol : b.color = seed.color := by
      rcases hconn.cases_tail with heq | ⟨c, _, hstep⟩
      · rw [heq]
      · exact hstep.2.2.1
    rw [← hbid]
    exact hno b hbl hbcol
  rw [List.length_map] at hlen
  omega

/-- The whole landing resolution on collision: nearest-empty-cell snap, push,
then match resolution.  (`updateAvailableColors` and the projectile reset are
presentation/projectile state and are not part of the grid world.) -/
def landShot (ballX ballY : Q3) (color : Color) (s : GameState) : GameState :=
  let pl := pushLanded s ballX ballY color
  (checkMatches pl.1 pl.2).1

/-! ## Reachable grid states -/

/-- States the grid world can reach: an initial grid, then ceiling drops and
landed shots, both only while the game is not over (the driver gates both on
`!isGameOver`).  The collision position and all random draws are arbitrary
parameters. -/
inductive Reach : GameState → Prop where
  | init : ∀ w h present pick, Reach (initGrid w h present pick)
  | drop : ∀ s pick, Reach s → s.gameOver = false → Reach (dropCeiling pick s)
  | land : ∀ s ballX ballY color, Reach s → s.gameOver = false →
      Reach (landShot ballX ballY color s)

/-- Reachability where every landing happens with at least one empty cell in
the scan window (no boundary exhaustion). -/
inductive ReachSafe : GameState → Prop where
  | init : ∀ w h present pick, ReachSafe (initGrid w h present pick)
  | drop : ∀ s pick, ReachSafe s → s.gameOver = false → ReachSafe (dropCeiling pick s)
  | land : ∀ s ballX ballY color, ReachSafe s → s.gameOver = false →
      (∃ rc ∈ windowCells, cellOccupied s rc.1 rc.2 = false) →
      ReachSafe (landShot ballX ballY color s)

/-- Two list entries never collide as active bubbles on the same cell. -/
def cellsDiffer (b1 b2 : Bubble) : Prop :=
  b1.active = true → b2.active = true → (b1.row, b1.col) ≠ (b2.row, b2.col)

/-- No two simultaneously active bubbles share a `(row, col)` cell. -/
def UniqueActiveCells (s : GameState) : Prop :=
  s.bubbles.Pairwise cellsDiffer

/-! ## Straight-line reachability test `isPathClear` -/

/-- Scan upward from `n` for the first value satisfying `P`, with enough fuel. -/
def searchUp (P : ℕ → Bool) : ℕ → ℕ → ℕ
  | n, 0 => n
  | n, fuel + 1 => if P n then n else searchUp P (n + 1) fuel

/-- A rational upper bound for `a + b·√3` (since `√3 ≤ 2`). -/
def Q3.ratBound (x : Q3) : ℚ := x.a + 2 * |x.b|

/-- `steps = Math.ceil(distance / (BUBBLE_RADIUS / 2))` with
`distance = sqrt sSq`: the least `n` with `distance ≤ 11 * n`, i.e. with
`sSq ≤ (11 n)^2`. -/
def ceilSteps (sSq : Q3) : ℕ :=
  searchUp (fun n => decide (sSq ≤ Q3.ofRat (((11 * n : ℕ) : ℚ) ^ 2))) 0
    ((Int.ceil (Q3.ratBound sSq)).toNat + 1)

/-- `isPathClear(target)`: sample `steps` points along anchor→target, check
samples `1 ≤ i < steps - 2` for an intruding other active bubble within
`1.8 * BUBBLE_RADIUS`. -/
def isPathClear (s : GameState) (target : Bubble) : Bool :=
  let startX := Q3.ofRat (anchorX s)
  let startY := Q3.ofRat (anchorY s)
  let dx := target.x - startX
  let dy := target.y - startY
  let sSq := dx * dx + dy * dy
  let steps := ceilSteps sSq
  (List.range' 1 (steps - 3)).all (fun i =>
    let t : ℚ := (i : ℚ) / (steps : ℚ)
    let cx := startX + dx * Q3.ofRat t
    let cy := startY + dy * Q3.ofRat t
    s.bubbles.all (fun b =>
      !(b.active && b.id != target.id &&
        decide (distSqQ cx cy b.x b.y < Q3.ofRat ((BUBBLE_RADIUS * (18 / 10)) ^ 2)))))

end Slingshot

namespace Slingshot

/-! ## Claim theorems -/

/-- Full characterization of `releaseShot` through the real draw distance
`d = sqrt(dx^2 + dy^2)`: shared support for the release-related claims. -/
theorem releaseShot_spec (ax ay : ℚ) (p : Proj) (d : ℝ)
    (hd : 0 ≤ d)
    (hsq : d ^ 2 = (((ax - p.px) ^ 2 + (ay - p.py) ^ 2 : ℚ) : ℝ)) :
    ((releaseShot ax ay p).flying = true ↔ 30 < d)
    ∧ (30 < d →
        ((releaseShot ax ay p).vx : ℝ)
            = ((ax : ℝ) - (p.px : ℝ)) *
              ((3:ℝ)/20 + ((9:ℝ)/20 - (3:ℝ)/20) * (min (d / 180) 1) ^ 2)
          ∧ ((releaseShot ax ay p).vy : ℝ)
            = ((ay : ℝ) - (p.py : ℝ)) *
              ((3:ℝ)/20 + ((9:ℝ)/20 - (3:ℝ)/20) * (min (d / 180) 1) ^ 2)
          ∧ (releaseShot ax ay p).px = p.px ∧ (releaseShot ax ay p).py = p.py)
    ∧ (d ≤ 30 →
        releaseShot ax ay p = { px := ax, py := ay, vx := p.vx, vy := p.vy, flying := false }) := by
  have hsq2 : d ^ 2 = ((ax:ℝ) - (p.px:ℝ)) ^ 2 + ((ay:ℝ) - (p.py:ℝ)) ^ 2 := by
    rw [hsq]; push_cast; ring
  have hcond : (30 ^ 2 < (ax - p.px) ^ 2 + (ay - p.py) ^ 2) ↔ 30 < d := by
    constructor
    · intro h
      have h2 : (30:ℝ) ^ 2 < ((ax:ℝ) - (p.px:ℝ)) ^ 2 + ((ay:ℝ) - (p.py:ℝ)) ^ 2 := by
        have := (Rat.cast_lt (K := ℝ)).mpr h
        push_cast at this
        convert this using 2
      nlinarith [hsq2]
    · intro h
      have h2 : (30:ℝ) ^ 2 < ((ax:ℝ) - (p.px:ℝ)) ^ 2 + ((ay:ℝ) - (p.py:ℝ)) ^ 2 := by
        nlinarith [hsq2]
      have : ((30:ℚ) ^ 2 : ℝ) < (((ax - p.px) ^ 2 + (ay - p.py) ^ 2 : ℚ) : ℝ) := by
        push_cast
        convert h2 using 2
      exact_mod_cast this
  have hmin : min ((((ax:ℝ) - (p.px:ℝ)) ^ 2 + ((ay:ℝ) - (p.py:ℝ)) ^ 2) / ((180:ℝ)) ^ 2) 1
      = (min (d / 180) 1) ^ 2 := by
    rw [← hsq2]
    rcases le_total d 180 with hle | hgt
    · rw [min_eq_left (by nlinarith), min_eq_left (by
        rw [div_le_one (by norm_num : (0:ℝ) < 180)]; linarith)]
      ring
    · rw [min_eq_right (by nlinarith), min_eq_right (by
        rw [le_div_iff₀ (by norm_num : (0:ℝ) < 180)]; linarith)]
      norm_num
  refine ⟨?_, ?_, ?_⟩
  · unfold releaseShot
    dsimp only
    split_ifs with h
    · simpa using hcond.mp h
    · simp only [Bool.false_eq_true, false_iff]
      intro hlt
      exact h (hcond.mpr hlt)
  · intro hlt
    unfold releaseShot
    dsimp only
    rw [if_pos (hcond.mpr hlt)]
    refine ⟨?_, ?_, rfl, rfl⟩
    · push_cast [MIN_FORCE_MULT, MAX_FORCE_MULT, MAX_DRAG_DIST]
      rw [hmin]
    · push_cast [MIN_FORCE_MULT, MAX_FORCE_MULT, MAX_DRAG_DIST]
      rw [hmin]
  · intro hle
    unfold releaseShot
    dsimp only
    rw [if_neg (fun h => absurd (hcond.mp h) (not_lt.mpr hle))]

/-- **C7.** On trigger release, the projectile launches iff the draw
distance `d = |anchor - drawPosition|` strictly exceeds 30 (a release at
exactly 30 or below snaps back to Resting at the anchor), and on launch the
velocity is `(anchor - drawPosition) * velocityMultiplier` with
`velocityMultiplier = MIN_FORCE_MULT + (MAX_FORCE_MULT - MIN_FORCE_MULT) * r^2`
for `r = min(d / MAX_DRAG_DIST, 1)` — the quadratic easing between 0.15
and 0.45. -/
theorem c7_release_threshold_and_velocity (ax ay : ℚ) (p : Proj) (d : ℝ)
    (hd : 0 ≤ d)
    (hsq : d ^ 2 = (((ax - p.px) ^ 2 + (ay - p.py) ^ 2 : ℚ) : ℝ)) :
    ((releaseShot ax ay p).flying = true ↔ 30 < d)
    ∧ (30 < d →
        ((releaseShot ax ay p).vx : ℝ)
            = ((ax : ℝ) - (p.px : ℝ)) *
              ((3:ℝ)/20 + ((9:ℝ)/20 - (3:ℝ)/20) * (min (d / 180) 1) ^ 2)
          ∧ ((releaseShot ax ay p).vy : ℝ)
            = ((ay : ℝ) - (p.py : ℝ)) *
              ((3:ℝ)/20 + ((9:ℝ)/20 - (3:ℝ)/20) * (min (d / 180) 1) ^ 2)
          ∧ (releaseShot ax ay p).px = p.px ∧ (releaseShot ax ay p).py = p.py)
    ∧ (d ≤ 30 →
        releaseShot ax ay p = { px := ax, py := ay, vx := p.vx, vy := p.vy, flying := false }) :=
  releaseShot_spec ax ay p d hd hsq

/-- Witness for C7: with the anchor at the origin and the projectile drawn to
`(0, 50)` the draw distance is 50 > 30, so the shot launches. -/
theorem c7_release_witness :
    (releaseShot 0 0 { px := 0, py := 50, vx := 0, vy := 0, flying := false }).flying = true :=
  (c7_release_threshold_and_velocity 0 0 { px := 0, py := 50, vx := 0, vy := 0, flying := false }
    50 (by norm_num) (by push_cast; norm_num)).1.mpr (by norm_num)

/-- **C10.** Launch speed is bounded: when the projectile enters Flying after
a draw of distance `d ≤ MAX_DRAG_DIST = 180` (the aim position is radially
clamped to 180 during aiming), its speed is
`d * (0.15 + 0.3 * (d/180)^2)`, hence at most `180 * 0.45 = 81`. -/
theorem c10_launch_speed_bounded (ax ay : ℚ) (p : Proj) (d : ℝ)
    (hd : 0 ≤ d)
    (hsq : d ^ 2 = (((ax - p.px) ^ 2 + (ay - p.py) ^ 2 : ℚ) : ℝ))
    (hclamp : d ≤ 180)
    (hfly : (releaseShot ax ay p).flying = true) :
    Real.sqrt (((releaseShot ax ay p).vx : ℝ) ^ 2 + ((releaseShot ax ay p).vy : ℝ) ^ 2)
        = d * ((3:ℝ)/20 + ((9:ℝ)/20 - (3:ℝ)/20) * (d / 180) ^ 2)
    ∧ Real.sqrt (((releaseShot ax ay p).vx : ℝ) ^ 2 + ((releaseShot ax ay p).vy : ℝ) ^ 2) ≤ 81 := by
  obtain ⟨hiff, hvel, hsnap⟩ := releaseShot_spec ax ay p d hd hsq
  have hlt : 30 < d := hiff.mp hfly
  obtain ⟨hvx, hvy, hpx2, hpy2⟩ := hvel hlt
  have hminEq : min (d / 180) 1 = d / 180 :=
    min_eq_left (by rw [div_le_one (by norm_num : (0:ℝ) < 180)]; exact hclamp)
  have hsq2 : ((ax:ℝ) - (p.px:ℝ)) ^ 2 + ((ay:ℝ) - (p.py:ℝ)) ^ 2 = d ^ 2 := by
    rw [hsq]; push_cast; ring
  have hsum : ((releaseShot ax ay p).vx : ℝ) ^ 2 + ((releaseShot ax ay p).vy : ℝ) ^ 2
      = (d * ((3:ℝ)/20 + ((9:ℝ)/20 - (3:ℝ)/20) * (d / 180) ^ 2)) ^ 2 := by
    rw [hvx, hvy, hminEq]
    have expand : (((ax:ℝ) - (p.px:ℝ)) * ((3:ℝ)/20 + ((9:ℝ)/20 - (3:ℝ)/20) * (d / 180) ^ 2)) ^ 2
        + (((ay:ℝ) - (p.py:ℝ)) * ((3:ℝ)/20 + ((9:ℝ)/20 - (3:ℝ)/20) * (d / 180) ^ 2)) ^ 2
        = (((ax:ℝ) - (p.px:ℝ)) ^ 2 + ((ay:ℝ) - (p.py:ℝ)) ^ 2)
          * ((3:ℝ)/20 + ((9:ℝ)/20 - (3:ℝ)/20) * (d / 180) ^ 2) ^ 2 := by ring
    rw [expand, hsq2]
    ring
  have hspeed : Real.sqrt (((releaseShot ax ay p).vx : ℝ) ^ 2 + ((releaseShot ax ay p).vy : ℝ) ^ 2)
      = d * ((3:ℝ)/20 + ((9:ℝ)/20 - (3:ℝ)/20) * (d / 180) ^ 2) := by
    rw [hsum, Real.sqrt_sq (by positivity)]
  refine ⟨hspeed, ?_⟩
  rw [hspeed]
  nlinarith [mul_nonneg (sub_nonneg.mpr hclamp)
    (by positivity : (0:ℝ) ≤ (3:ℝ)/10 * d ^ 2 + 54 * d + 14580)]

/-- Witness for C10: a full draw to `(0, 180)` launches at speed exactly 81. -/
theorem c10_launch_speed_witness :
    Real.sqrt (((releaseShot 0 0 { px := 0, py := 180, vx := 0, vy := 0, flying := false }).vx : ℝ) ^ 2
      + ((releaseShot 0 0 { px := 0, py := 180, vx := 0, vy := 0, flying := false }).vy : ℝ) ^ 2) ≤ 81 :=
  (c10_launch_speed_bounded 0 0 { px := 0, py := 180, vx := 0, vy := 0, flying := false }
    180 (by norm_num) (by push_cast; norm_num) (by norm_num)
    ((releaseShot_spec 0 0 { px := 0, py := 180, vx := 0, vy := 0, flying := false }
      180 (by norm_num) (by push_cast; norm_num)).1.mpr (by norm_num))).2

/-- **C6.** The adjacency predicate `isNeighbor` is symmetric: for every pair
of bubbles (in particular every pair with valid offset-hex coordinates, each
row's parity rule applied from its own side), `isNeighbor a b` and
`isNeighbor b a` agree. -/
theorem c6_isNeighbor_symm (a b : Bubble) : isNeighbor a b = isNeighbor b a := by
  unfold isNeighbor
  rw [Bool.eq_iff_iff]
  simp only [Bool.or_eq_true, beq_iff_eq]
  split_ifs <;> simp_all <;> omega

end Slingshot

namespace Slingshot

/-- **C8.** After `dropCeiling`, every bubble that existed before has
`row_after = row_before + 1` with its pixel position recomputed from the new
row, and a complete new row 0 exists with `GRID_COLS = 12` columns (the
even-row column count), every cell filled with an active bubble. -/
theorem c8_dropCeiling_shifts_and_prepends (s : GameState) (pick : ℕ → Color)
    (hrows : ∀ b ∈ s.bubbles, 0 ≤ b.row) :
    (∀ b ∈ s.bubbles, ∃ b2 ∈ (dropCeiling pick s).bubbles,
        b2.id = b.id ∧ b2.row = b.row + 1 ∧ b2.col = b.col ∧ b2.color = b.color
        ∧ b2.active = b.active
        ∧ b2.x = (getBubblePos (b.row + 1) b.col s.width).1
        ∧ b2.y = (getBubblePos (b.row + 1) b.col s.width).2)
    ∧ (∀ c : ℕ, c < GRID_COLS → ∃ b2 ∈ (dropCeiling pick s).bubbles,
        b2.row = 0 ∧ b2.col = (c : ℤ) ∧ b2.active = true
        ∧ b2.x = (getBubblePos 0 (c : ℤ) s.width).1
        ∧ b2.y = (getBubblePos 0 (c : ℤ) s.width).2)
    ∧ ((dropCeiling pick s).bubbles.filter (fun b => b.row == 0)).length = GRID_COLS := by
  have hbub : (dropCeiling pick s).bubbles
      = (List.range GRID_COLS).map (fun c =>
          { id := s.nextId + c, row := 0, col := (c : ℤ),
            x := (getBubblePos 0 c s.width).1, y := (getBubblePos 0 c s.width).2,
            color := pick c, active := true : Bubble })
        ++ s.bubbles.map (shiftBubble s.width) := rfl
  refine ⟨?_, ?_, ?_⟩
  · intro b hb
    refine ⟨shiftBubble s.width b, ?_, rfl, rfl, rfl, rfl, rfl, rfl, rfl⟩
    rw [hbub]
    exact List.mem_append_right _ (List.mem_map_of_mem _ hb)
  · intro c hc
    refine ⟨{ id := s.nextId + c, row := 0, col := (c : ℤ),
              x := (getBubblePos 0 c s.width).1, y := (getBubblePos 0 c s.width).2,
              color := pick c, active := true }, ?_, rfl, rfl, rfl, rfl, rfl⟩
    rw [hbub]
    exact List.mem_append_left _ (List.mem_map_of_mem _ (List.mem_range.mpr hc))
  · rw [hbub, List.filter_append]
    have h1 : ((List.range GRID_COLS).map (fun c =>
        { id := s.nextId + c, row := 0, col := (c : ℤ),
          x := (getBubblePos 0 c s.width).1, y := (getBubblePos 0 c s.width).2,
          color := pick c, active := true : Bubble })).filter (fun b => b.row == 0)
        = (List.range GRID_COLS).map (fun c =>
          { id := s.nextId + c, row := 0, col := (c : ℤ),
            x := (getBubblePos 0 c s.width).1, y := (getBubblePos 0 c s.width).2,
            color := pick c, active := true : Bubble }) := by
      apply List.filter_eq_self.mpr
      intro b hb
      rcases List.mem_map.mp hb with ⟨c, _, hcb⟩
      rw [← hcb]
      rfl
    have h2 : (s.bubbles.map (shiftBubble s.width)).filter (fun b => b.row == 0) = [] := by
      apply List.filter_eq_nil_iff.mpr
      intro b hb
      rcases List.mem_map.mp hb with ⟨b0, hb0, hbb⟩
      have := hrows b0 hb0
      simp only [← hbb, shiftBubble, beq_iff_eq]
      omega
    rw [h1, h2, List.append_nil, List.length_map, List.length_range]

/-- Witness for C8: the empty starting state satisfies the row hypothesis;
after one ceiling drop its row-0 filter has exactly `GRID_COLS` entries. -/
theorem c8_dropCeiling_witness :
    (((dropCeiling (fun _ => Color.red)
        { bubbles := [], score := 0, gameOver := false, nextId := 0,
          width := 600, height := 620 }).bubbles.filter (fun b => b.row == 0)).length
      = GRID_COLS) :=
  (c8_dropCeiling_shifts_and_prepends
    { bubbles := [], score := 0, gameOver := false, nextId := 0, width := 600, height := 620 }
    (fun _ => Color.red) (by intro b hb; cases hb)).2.2

/-- The running maximum of the game-over reduce dominates every list entry. -/
theorem foldl_qmax_ge_init (l : List Bubble) (init : Q3) :
    init.toReal ≤ (l.foldl (fun m b => Q3.max m b.y) init).toReal := by
  induction l generalizing init with
  | nil => exact le_refl _
  | cons hd tl ih =>
    refine le_trans ?_ (ih (Q3.max init hd.y))
    rw [Q3.toReal_max]
    exact le_max_left _ _

theorem foldl_qmax_ge_mem (l : List Bubble) (init : Q3) (b : Bubble) (hb : b ∈ l) :
    b.y.toReal ≤ (l.foldl (fun m b => Q3.max m b.y) init).toReal := by
  induction l generalizing init with
  | nil => cases hb
  | cons hd tl ih =>
    rcases List.mem_cons.mp hb with hbh | hbt
    · subst hbh
      refine le_trans ?_ (foldl_qmax_ge_init tl (Q3.max init b.y))
      rw [Q3.toReal_max]
      exact le_max_right _ _
    · exact ih _ hbt

/-- `dropCeiling` sets the terminal flag exactly when the unfiltered maximum
`y` of the post-drop bubble list exceeds `anchor.y - 150`. -/
theorem dropCeiling_gameOver_eq (pick : ℕ → Color) (s : GameState) :
    (dropCeiling pick s).gameOver
      = (if Q3.ofRat (anchorY s - 150) <
            (dropCeiling pick s).bubbles.foldl (fun m b => Q3.max m b.y) (Q3.ofRat 0)
         then true else s.gameOver) := rfl

/-- The concrete state for C1: one inactive bubble at row 9 in a 600×620
field, nothing else. -/
def c1State : GameState :=
  { bubbles := [{ id := 0, row := 9, col := 0,
                  x := (getBubblePos 9 0 600).1, y := (getBubblePos 9 0 600).2,
                  color := .red, active := false }],
    score := 0, gameOver := false, nextId := 1, width := 600, height := 620 }

/-- **C1** (against the claim): the game-over reduce in `dropCeiling` does
not filter on `active` (unlike the analogous psychometrics reduce in the same
source), so after a drop of `c1State` the terminal flag is set even though
every active bubble's `y` stays at or below `anchor.y - 150` — the flag is
raised solely by an inactive bubble below the danger line. -/
theorem c1_gameover_counts_inactive :
    (dropCeiling (fun _ => .red) c1State).gameOver = true
    ∧ ∀ b ∈ (dropCeiling (fun _ => .red) c1State).bubbles,
        b.active = true → ¬ (Q3.ofRat (anchorY c1State - 150) < b.y) := by
  have hs3 : (1.7 : ℝ) < Real.sqrt 3 := by
    have h1 : ((1.7 : ℝ)) ^ 2 < 3 := by norm_num
    nlinarith [Real.sq_sqrt ((by norm_num : (0:ℝ) ≤ 3)), Real.sqrt_nonneg 3,
      sq_nonneg (Real.sqrt 3 - 1.7)]
  have hbub : (dropCeiling (fun _ => .red) c1State).bubbles
      = (List.range GRID_COLS).map (fun c =>
          { id := c1State.nextId + c, row := 0, col := (c : ℤ),
            x := (getBubblePos 0 c c1State.width).1, y := (getBubblePos 0 c c1State.width).2,
            color := .red, active := true : Bubble })
        ++ c1State.bubbles.map (shiftBubble c1State.width) := rfl
  constructor
  · rw [dropCeiling_gameOver_eq]
    rw [if_pos]
    rw [Q3.lt_iff]
    have hmem : (shiftBubble c1State.width
        { id := 0, row := 9, col := 0,
          x := (getBubblePos 9 0 600).1, y := (getBubblePos 9 0 600).2,
          color := .red, active := false })
        ∈ (dropCeiling (fun _ => .red) c1State).bubbles := by
      rw [hbub]
      exact List.mem_append_right _ (List.mem_map_of_mem _ (List.mem_singleton.mpr rfl))
    refine lt_of_lt_of_le ?_ (foldl_qmax_ge_mem _ _ _ hmem)
    show (Q3.ofRat (anchorY c1State - 150)).toReal
        < (⟨BUBBLE_RADIUS, BUBBLE_RADIUS * ((9 + 1 : ℤ) : ℚ)⟩ : Q3).toReal
    rw [Q3.toReal_ofRat]
    unfold Q3.toReal anchorY SLINGSHOT_BOTTOM_OFFSET BUBBLE_RADIUS
    show ((620 - 220 - 150 : ℚ) : ℝ) < ((22:ℚ):ℝ) + ((22 * ((9 + 1 : ℤ) : ℚ) : ℚ) : ℝ) * Real.sqrt 3
    push_cast
    nlinarith [hs3]
  · intro b hb hact
    rw [hbub] at hb
    rcases List.mem_append.mp hb with hb | hb
    · rcases List.mem_map.mp hb with ⟨c, _, hcb⟩
      rw [Q3.lt_iff, not_lt, ← hcb]
      show (⟨BUBBLE_RADIUS, BUBBLE_RADIUS * ((0 : ℤ) : ℚ)⟩ : Q3).toReal
          ≤ (Q3.ofRat (anchorY c1State - 150)).toReal
      rw [Q3.toReal_ofRat]
      unfold Q3.toReal anchorY SLINGSHOT_BOTTOM_OFFSET BUBBLE_RADIUS
      show ((22:ℚ):ℝ) + ((22 * ((0 : ℤ) : ℚ) : ℚ) : ℝ) * Real.sqrt 3 ≤ ((620 - 220 - 150 : ℚ) : ℝ)
      push_cast
      norm_num
    · rcases List.mem_map.mp hb with ⟨b0, hb0, hcb⟩
      rw [List.mem_singleton.mp hb0] at hcb
      rw [← hcb] at hact
      cases hact

end Slingshot

namespace Slingshot

/-- **C4.** `checkMatches` computes the full connected component of active
bubbles reachable from the seed via `isNeighbor` steps through same-colored
bubbles; when that component has size ≥ 3 it returns `true` and deactivates
exactly its members (never fewer than 3 bubbles, never a strict subset, never
a bubble outside it); when its size is < 3 it returns `false` leaving the
state — every active flag and the score — unchanged. -/
theorem c4_checkMatches_component (s : GameState) (seed : Bubble)
    (hseed : seed ∈ s.bubbles) (hnd : (s.bubbles.map Bubble.id).Nodup) :
    (∀ b, b ∈ (floodLoop s.bubbles seed.color [seed] [] []).2 ↔
        b ∈ s.bubbles ∧ Conn s.bubbles seed b)
    ∧ (3 ≤ (floodLoop s.bubbles seed.color [seed] [] []).2.length →
        (checkMatches s seed).2 = true
        ∧ (checkMatches s seed).1.bubbles = s.bubbles.map (fun b =>
            if b.id ∈ (floodLoop s.bubbles seed.color [seed] [] []).2.map Bubble.id
            then { b with active := false } else b))
    ∧ ((floodLoop s.bubbles seed.color [seed] [] []).2.length < 3 →
        checkMatches s seed = (s, false)) := by
  refine ⟨(floodLoop_matches _ _ hseed hnd).1, ?_, checkMatches_eq_of_lt s seed⟩
  intro h3
  rw [checkMatches_eq_of_ge s seed h3]
  exact ⟨rfl, rfl⟩

/-- A concrete horizontal 4-cluster of red bubbles (cells (0,0)–(0,3)). -/
def c5State : GameState :=
  { bubbles := [
      { id := 0, row := 0, col := 0, x := ⟨0,0⟩, y := ⟨0,0⟩, color := .red, active := true },
      { id := 1, row := 0, col := 1, x := ⟨0,0⟩, y := ⟨0,0⟩, color := .red, active := true },
      { id := 2, row := 0, col := 2, x := ⟨0,0⟩, y := ⟨0,0⟩, color := .red, active := true },
      { id := 3, row := 0, col := 3, x := ⟨0,0⟩, y := ⟨0,0⟩, color := .red, active := true }],
    score := 0, gameOver := false, nextId := 4, width := 600, height := 620 }

def c5Seed : Bubble :=
  { id := 0, row := 0, col := 0, x := ⟨0,0⟩, y := ⟨0,0⟩, color := .red, active := true }

/-- Witness for C4: on the concrete 4-cluster the resolution pops and
returns `true`. -/
theorem c4_checkMatches_witness : (checkMatches c5State c5Seed).2 = true :=
  ((c4_checkMatches_component c5State c5Seed (List.mem_cons_self _ _)
      (by decide)).2.1
    (by simp [floodLoop, isNeighbor, c5State, c5Seed])).1

/-- **C5.** When a connected same-color component of size `n ≥ 3` with
per-bubble base points `p` is popped, the score increases by exactly
`n * p * m` with `m = 1.5` for `n > 3` and `m = 1.0` otherwise (the floor in
the source is exact because every palette point value is even). -/
theorem c5_score_formula (s : GameState) (seed : Bubble) (n : ℕ)
    (hn : n = (floodLoop s.bubbles seed.color [seed] [] []).2.length)
    (h3 : 3 ≤ n) :
    (((checkMatches s seed).1.score - s.score : ℤ) : ℚ)
      = (n : ℚ) * (seed.color.points : ℚ) * (if 3 < n then 3 / 2 else 1) := by
  have h3' : 3 ≤ (floodLoop s.bubbles seed.color [seed] [] []).2.length := hn ▸ h3
  rw [checkMatches_eq_of_ge s seed h3']
  dsimp only
  rw [← hn]
  obtain ⟨k, hk⟩ : ∃ k : ℤ, seed.color.points = 2 * k := by
    cases seed.color
    · exact ⟨50, rfl⟩
    · exact ⟨75, rfl⟩
    · exact ⟨100, rfl⟩
    · exact ⟨125, rfl⟩
    · exact ⟨150, rfl⟩
    · exact ⟨250, rfl⟩
  by_cases h4 : 3 < n
  · rw [if_pos h4]
    have heq : (n : ℚ) * (seed.color.points : ℚ) * ((3:ℚ) / 2)
        = ((3 * (n : ℤ) * k : ℤ) : ℚ) := by
      rw [hk]
      push_cast
      ring
    rw [heq, Int.floor_intCast]
    push_cast
    ring
  · rw [if_neg h4]
    have heq : (n : ℚ) * (seed.color.points : ℚ) * 1
        = (((n : ℤ) * seed.color.points : ℤ) : ℚ) := by
      push_cast
      ring
    rw [heq, Int.floor_intCast]
    push_cast
    ring

/-- Witness for C5 (the spec's scenario): popping the concrete 4-cluster of
red bubbles (base points 100) increments the score by `4 * 100 * 1.5 = 600`. -/
theorem c5_score_witness :
    (((checkMatches c5State c5Seed).1.score - c5State.score : ℤ) : ℚ) = 600 := by
  have hn : (floodLoop c5State.bubbles c5Seed.color [c5Seed] [] []).2.length = 4 := by
    simp [floodLoop, isNeighbor, c5State, c5Seed]
  have h := c5_score_formula c5State c5Seed 4 hn.symm (by norm_num)
  rw [h]
  norm_num [c5Seed, Color.points]

end Slingshot

namespace Slingshot

/-! ## Preservation of cell uniqueness (support for C3) -/

theorem initGrid_unique (w h : ℚ) (present : ℕ → ℕ → Bool) (pick : ℕ → ℕ → Color) :
    UniqueActiveCells (initGrid w h present pick)
    ∧ ∀ b ∈ (initGrid w h present pick).bubbles, 0 ≤ b.row := by
  constructor
  · unfold UniqueActiveCells initGrid
    dsimp only
    rw [List.pairwise_flatMap]
    constructor
    · intro r _
      rw [List.pairwise_filterMap]
      apply (List.pairwise_lt_range _).imp
      intro c c2 hlt x hx y hy
      have hcx : x.row = (r : ℤ) ∧ x.col = (c : ℤ) := by
        by_cases hp : present r c
        · simp only [hp, if_true, Option.mem_def, Option.some.injEq] at hx
          rw [← hx]
          exact ⟨rfl, rfl⟩
        · simp [hp] at hx
      have hcy : y.row = (r : ℤ) ∧ y.col = (c2 : ℤ) := by
        by_cases hp : present r c2
        · simp only [hp, if_true, Option.mem_def, Option.some.injEq] at hy
          rw [← hy]
          exact ⟨rfl, rfl⟩
        · simp [hp] at hy
      intro _ _ hcells
      rw [Prod.mk.injEq] at hcells
      rw [hcx.2, hcy.2] at hcells
      omega
    · apply (List.pairwise_lt_range _).imp
      intro r r2 hlt x hx y hy
      rcases List.mem_filterMap.mp hx with ⟨c, _, hcx⟩
      rcases List.mem_filterMap.mp hy with ⟨c2, _, hcy⟩
      have hrx : x.row = (r : ℤ) := by
        by_cases hp : present r c
        · simp only [hp, if_true, Option.some.injEq] at hcx
          rw [← hcx]
        · simp [hp] at hcx
      have hry : y.row = (r2 : ℤ) := by
        by_cases hp : present r2 c2
        · simp only [hp, if_true, Option.some.injEq] at hcy
          rw [← hcy]
        · simp [hp] at hcy
      intro _ _ hcells
      rw [Prod.mk.injEq] at hcells
      rw [hrx, hry] at hcells
      omega
  · intro b hb
    rcases List.mem_flatMap.mp hb with ⟨r, _, hbr⟩
    rcases List.mem_filterMap.mp hbr with ⟨c, _, hbc⟩
    by_cases hp : present r c
    · simp only [hp, if_true, Option.some.injEq] at hbc
      rw [← hbc]
      exact Int.ofNat_nonneg r
    · simp [hp] at hbc

theorem dropCeiling_unique (pick : ℕ → Color) (s : GameState)
    (h : UniqueActiveCells s) (hr : ∀ b ∈ s.bubbles, 0 ≤ b.row) :
    UniqueActiveCells (dropCeiling pick s)
    ∧ ∀ b ∈ (dropCeiling pick s).bubbles, 0 ≤ b.row := by
  have hbub : (dropCeiling pick s).bubbles
      = (List.range GRID_COLS).map (fun c =>
          { id := s.nextId + c, row := 0, col := (c : ℤ),
            x := (getBubblePos 0 c s.width).1, y := (getBubblePos 0 c s.width).2,
            color := pick c, active := true : Bubble })
        ++ s.bubbles.map (shiftBubble s.width) := rfl
  constructor
  · unfold UniqueActiveCells
    rw [hbub, List.pairwise_append]
    refine ⟨?_, ?_, ?_⟩
    · rw [List.pairwise_map]
      apply (List.pairwise_lt_range _).imp
      intro c c2 hlt
      intro _ _ hcells
      simp only [Prod.mk.injEq, Int.natCast_inj] at hcells
      omega
    · rw [List.pairwise_map]
      apply h.imp_of_mem
      intro a b ha hb hR
      unfold cellsDiffer at hR ⊢
      simp only [shiftBubble] at *
      intro hact1 hact2 hcells
      simp only [Prod.mk.injEq] at hcells
      exact hR hact1 hact2 (by
        simp only [Prod.mk.injEq]
        exact ⟨by omega, hcells.2⟩)
    · intro a ha b hb
      rcases List.mem_map.mp ha with ⟨c, _, hca⟩
      rcases List.mem_map.mp hb with ⟨b0, hb0, hcb⟩
      intro _ _ hcells
      simp only [Prod.mk.injEq] at hcells
      have h1 : a.row = 0 := by rw [← hca]
      have h2 : b.row = b0.row + 1 := by rw [← hcb]; rfl
      have := hr b0 hb0
      omega
  · intro b hb
    rw [hbub] at hb
    rcases List.mem_append.mp hb with hb | hb
    · rcases List.mem_map.mp hb with ⟨c, _, hcb⟩
      rw [← hcb]
    · rcases List.mem_map.mp hb with ⟨b0, hb0, hcb⟩
      have := hr b0 hb0
      have h2 : b.row = b0.row + 1 := by rw [← hcb]; rfl
      omega

end Slingshot

namespace Slingshot

theorem cellOccupied_iff (s : GameState) (r c : ℤ) :
    cellOccupied s r c = true ↔ ∃ b ∈ s.bubbles, b.active = true ∧ b.row = r ∧ b.col = c := by
  unfold cellOccupied
  rw [List.any_eq_true]
  constructor
  · rintro ⟨b, hb, hprop⟩
    simp only [Bool.and_eq_true, beq_iff_eq] at hprop
    exact ⟨b, hb, hprop.1.1, hprop.1.2, hprop.2⟩
  · rintro ⟨b, hb, h1, h2, h3⟩
    refine ⟨b, hb, ?_⟩
    simp only [Bool.and_eq_true, beq_iff_eq]
    exact ⟨⟨h1, h2⟩, h3⟩

theorem windowCells_row_nonneg : ∀ rc ∈ windowCells, 0 ≤ rc.1 := by
  intro rc hrc
  unfold windowCells at hrc
  rcases List.mem_flatMap.mp hrc with ⟨r, _, hr⟩
  rcases List.mem_map.mp hr with ⟨c, _, hc⟩
  rw [← hc]
  exact Int.ofNat_nonneg r

/-- Running the landing scan from a good accumulator (or with an empty cell
ahead) ends on an empty in-window cell. -/
theorem land_foldl_good (s : GameState) (ballX ballY : Q3) :
    ∀ (l : List (ℤ × ℤ)) (acc : Option LandCand),
    (∀ rc ∈ l, 0 ≤ rc.1) →
    (acc = none ∨ ∃ c, acc = some c ∧ cellOccupied s c.row c.col = false ∧ 0 ≤ c.row) →
    ((∃ rc ∈ l, cellOccupied s rc.1 rc.2 = false) ∨ ∃ c, acc = some c) →
    ∃ c, l.foldl (fun best rc =>
        if cellOccupied s rc.1 rc.2 then best
        else
          let p := getBubblePos rc.1 rc.2 s.width
          let d := distSqQ ballX ballY p.1 p.2
          match best with
          | none => some ⟨d, rc.1, rc.2, p.1, p.2⟩
          | some bst => if d < bst.distSq then some ⟨d, rc.1, rc.2, p.1, p.2⟩ else some bst)
        acc = some c
      ∧ cellOccupied s c.row c.col = false ∧ 0 ≤ c.row := by
  intro l
  induction l with
  | nil =>
    intro acc _ hinv hex
    simp only [List.foldl_nil]
    rcases hinv with hnone | hg
    · rcases hex with ⟨rc, hrc, _⟩ | ⟨c, hc⟩
      · cases hrc
      · rw [hnone] at hc
        cases hc
    · exact hg
  | cons rc l ih =>
    intro acc hrow hinv hex
    rw [List.foldl_cons]
    by_cases hocc : cellOccupied s rc.1 rc.2 = true
    · rw [if_pos hocc]
      apply ih _ (fun rc2 h2 => hrow rc2 (List.mem_cons_of_mem _ h2)) hinv
      rcases hex with ⟨rc2, hrc2, hu⟩ | hsome
      · rcases List.mem_cons.mp hrc2 with heq | hmem
        · rw [heq] at hu
          rw [hu] at hocc
          cases hocc
        · exact Or.inl ⟨rc2, hmem, hu⟩
      · exact Or.inr hsome
    · rw [if_neg hocc]
      have hoccf : cellOccupied s rc.1 rc.2 = false := Bool.eq_false_iff.mpr hocc
      have hrcrow : 0 ≤ rc.1 := hrow rc (List.mem_cons_self _ _)
      rcases hinv with hnone | ⟨c, hc, hcocc, hcrow⟩
      · rw [hnone]
        apply ih _ (fun rc2 h2 => hrow rc2 (List.mem_cons_of_mem _ h2))
        · exact Or.inr ⟨_, rfl, hoccf, hrcrow⟩
        · exact Or.inr ⟨_, rfl⟩
      · rw [hc]
        dsimp only
        by_cases hlt : distSqQ ballX ballY (getBubblePos rc.1 rc.2 s.width).1
            (getBubblePos rc.1 rc.2 s.width).2 < c.distSq
        · rw [if_pos hlt]
          apply ih _ (fun rc2 h2 => hrow rc2 (List.mem_cons_of_mem _ h2))
          · exact Or.inr ⟨_, rfl, hoccf, hrcrow⟩
          · exact Or.inr ⟨_, rfl⟩
        · rw [if_neg hlt]
          apply ih _ (fun rc2 h2 => hrow rc2 (List.mem_cons_of_mem _ h2))
          · exact Or.inr ⟨c, rfl, hcocc, hcrow⟩
          · exact Or.inr ⟨c, rfl⟩

/-- When the scan window still has an empty cell, the landing search finds an
empty cell with nonnegative row. -/
theorem findLandingCell_success (s : GameState) (ballX ballY : Q3)
    (hex : ∃ rc ∈ windowCells, cellOccupied s rc.1 rc.2 = false) :
    ∃ c, findLandingCell s ballX ballY = some c
      ∧ cellOccupied s c.row c.col = false ∧ 0 ≤ c.row := by
  unfold findLandingCell
  exact land_foldl_good s ballX ballY windowCells none windowCells_row_nonneg
    (Or.inl rfl) (Or.inl hex)

/-- The bubble built by `pushLanded` for landing candidate `c`. -/
def landedBubble (s : GameState) (c : LandCand) (color : Color) : Bubble :=
  { id := s.nextId, row := c.row, col := c.col, x := c.x, y := c.y,
    color := color, active := true }

theorem pushLanded_some (s : GameState) (ballX ballY : Q3) (color : Color) (c : LandCand)
    (hc : findLandingCell s ballX ballY = some c) :
    pushLanded s ballX ballY color
      = ({ s with bubbles := s.bubbles ++ [landedBubble s c color], nextId := s.nextId + 1 },
         landedBubble s c color) := by
  unfold pushLanded landedBubble
  rw [hc]

/-- Match resolution never breaks cell uniqueness: it only clears `active`
flags and touches neither `row` nor `col`. -/
theorem checkMatches_unique (s : GameState) (seed : Bubble)
    (h : UniqueActiveCells s) (hr : ∀ b ∈ s.bubbles, 0 ≤ b.row) :
    UniqueActiveCells (checkMatches s seed).1
    ∧ ∀ b ∈ (checkMatches s seed).1.bubbles, 0 ≤ b.row := by
  by_cases h3 : 3 ≤ (floodLoop s.bubbles seed.color [seed] [] []).2.length
  · rw [checkMatches_eq_of_ge s seed h3]
    dsimp only
    constructor
    · unfold UniqueActiveCells at h ⊢
      dsimp only
      rw [List.pairwise_map]
      apply h.imp
      intro a b hR
      unfold cellsDiffer at hR ⊢
      by_cases hca : a.id ∈ (floodLoop s.bubbles seed.color [seed] [] []).2.map Bubble.id
      · simp only [hca, if_true]
        intro hact
        cases hact
      · by_cases hcb : b.id ∈ (floodLoop s.bubbles seed.color [seed] [] []).2.map Bubble.id
        · simp only [hca, hcb, if_true, if_false]
          intro _ hact
          cases hact
        · simp only [hca, hcb, if_false]
          exact hR
    · intro b hb
      rcases List.mem_map.mp hb with ⟨b0, hb0, hcb⟩
      have hr0 := hr b0 hb0
      by_cases hc0 : b0.id ∈ (floodLoop s.bubbles seed.color [seed] [] []).2.map Bubble.id
      · rw [← hcb]
        simp only [hc0, if_true]
        exact hr0
      · rw [← hcb]
        simp only [hc0, if_false]
        exact hr0
  · rw [checkMatches_eq_of_lt s seed (by omega)]
    exact ⟨h, hr⟩

/-- A landing that still finds an empty cell preserves cell uniqueness. -/
theorem landShot_unique (ballX ballY : Q3) (color : Color) (s : GameState)
    (h : UniqueActiveCells s) (hr : ∀ b ∈ s.bubbles, 0 ≤ b.row)
    (hex : ∃ rc ∈ windowCells, cellOccupied s rc.1 rc.2 = false) :
    UniqueActiveCells (landShot ballX ballY color s)
    ∧ ∀ b ∈ (landShot ballX ballY color s).bubbles, 0 ≤ b.row := by
  obtain ⟨c, hc, hcocc, hcrow⟩ := findLandingCell_success s ballX ballY hex
  unfold landShot
  rw [pushLanded_some s ballX ballY color c hc]
  dsimp only
  apply checkMatches_unique
  · unfold UniqueActiveCells at h ⊢
    dsimp only
    rw [List.pairwise_append]
    refine ⟨h, List.pairwise_singleton _ _, ?_⟩
    intro a ha b hb
    rw [List.mem_singleton.mp hb]
    intro hacta _ hcells
    simp only [Prod.mk.injEq] at hcells
    have : cellOccupied s c.row c.col = true :=
      (cellOccupied_iff s c.row c.col).mpr ⟨a, ha, hacta, hcells.1, hcells.2⟩
    rw [this] at hcocc
    cases hcocc
  · intro b hb
    rcases List.mem_append.mp hb with hb | hb
    · exact hr b hb
    · rw [List.mem_singleton.mp hb]
      exact hcrow

theorem reachSafe_invariant (s : GameState) (h : ReachSafe s) :
    UniqueActiveCells s ∧ ∀ b ∈ s.bubbles, 0 ≤ b.row := by
  induction h with
  | init w h2 present pick => exact initGrid_unique w h2 present pick
  | drop s pick hreach hgo ih => exact dropCeiling_unique pick s ih.1 ih.2
  | land s ballX ballY color hreach hgo hex ih =>
      exact landShot_unique ballX ballY color s ih.1 ih.2 hex

end Slingshot

namespace Slingshot

/-! ## The boundary-exhaustion scenario (support for C2 and C3) -/

theorem sqrt3_le_two : Real.sqrt 3 ≤ 2 := by
  nlinarith [Real.sq_sqrt (by norm_num : (0:ℝ) ≤ 3), Real.sqrt_nonneg 3]

theorem foldl_qmax_le (B : ℝ) :
    ∀ (l : List Bubble), (∀ b ∈ l, b.y.toReal ≤ B) →
    ∀ (init : Q3), init.toReal ≤ B →
    (l.foldl (fun m b => Q3.max m b.y) init).toReal ≤ B := by
  intro l
  induction l with
  | nil =>
    intro _ init hinit
    exact hinit
  | cons hd tl ih =>
    intro hl init hinit
    rw [List.foldl_cons]
    apply ih (fun b hb => hl b (List.mem_cons_of_mem _ hb))
    rw [Q3.toReal_max]
    exact max_le hinit (hl hd (List.mem_cons_self _ _))

theorem dropCeiling_gameOver_false (pick : ℕ → Color) (s : GameState)
    (hgo : s.gameOver = false)
    (hpos : (0:ℝ) ≤ ((anchorY s - 150 : ℚ) : ℝ))
    (hbound : ∀ b ∈ (dropCeiling pick s).bubbles,
        b.y.toReal ≤ ((anchorY s - 150 : ℚ) : ℝ)) :
    (dropCeiling pick s).gameOver = false := by
  rw [dropCeiling_gameOver_eq]
  rw [if_neg, hgo]
  rw [Q3.lt_iff, not_lt, Q3.toReal_ofRat]
  apply foldl_qmax_le _ _ hbound
  rw [Q3.toReal_ofRat]
  exact_mod_cast hpos

theorem shiftBubble_y (w : ℚ) (b : Bubble) :
    (shiftBubble w b).y = ⟨BUBBLE_RADIUS, BUBBLE_RADIUS * ((b.row + 1 : ℤ) : ℚ)⟩ := rfl

/-- The default bubble pushed when the landing search is exhausted: the
uninitialized `bestRow = bestCol = 0`, `bestX = bestY = 0` values. -/
def fallbackBubble (s : GameState) (color : Color) : Bubble :=
  { id := s.nextId, row := 0, col := 0, x := Q3.ofRat 0, y := Q3.ofRat 0,
    color := color, active := true }

theorem pushLanded_none (s : GameState) (ballX ballY : Q3) (color : Color)
    (h : findLandingCell s ballX ballY = none) :
    pushLanded s ballX ballY color
      = ({ s with bubbles := s.bubbles ++ [fallbackBubble s color], nextId := s.nextId + 1 },
         fallbackBubble s color) := by
  unfold pushLanded fallbackBubble
  rw [h]

/-- If every cell of the scan window is occupied, the landing search comes up
empty. -/
theorem findLandingCell_none (s : GameState) (ballX ballY : Q3)
    (h : ∀ rc ∈ windowCells, cellOccupied s rc.1 rc.2 = true) :
    findLandingCell s ballX ballY = none := by
  unfold findLandingCell
  have aux : ∀ (l : List (ℤ × ℤ)), (∀ rc ∈ l, cellOccupied s rc.1 rc.2 = true) →
      ∀ acc : Option LandCand, l.foldl (fun best rc =>
        if cellOccupied s rc.1 rc.2 then best
        else
          let p := getBubblePos rc.1 rc.2 s.width
          let d := distSqQ ballX ballY p.1 p.2
          match best with
          | none => some ⟨d, rc.1, rc.2, p.1, p.2⟩
          | some bst => if d < bst.distSq then some ⟨d, rc.1, rc.2, p.1, p.2⟩ else some bst)
        acc = acc := by
    intro l
    induction l with
    | nil =>
      intro _ acc
      rw [List.foldl_nil]
    | cons rc l ih =>
      intro hl acc
      rw [List.foldl_cons, if_pos (hl rc (List.mem_cons_self _ _))]
      exact ih (fun rc2 h2 => hl rc2 (List.mem_cons_of_mem _ h2)) acc
  exact aux windowCells h none

def exhaustBase : GameState := initGrid 600 1000 (fun _ _ => false) (fun _ _ => Color.red)

/-- The grid after `k` ceiling drops from the empty 600×1000 start. -/
def exhaustAfter (k : ℕ) : GameState := (dropCeiling (fun _ => Color.red))^[k] exhaustBase

theorem exhaustBase_bubbles : exhaustBase.bubbles = [] := rfl

theorem exhaustAfter_succ (k : ℕ) :
    exhaustAfter (k + 1) = dropCeiling (fun _ => Color.red) (exhaustAfter k) :=
  Function.iterate_succ_apply' _ _ _

theorem exhaustAfter_height (k : ℕ) : (exhaustAfter k).height = 1000 := by
  induction k with
  | zero => rfl
  | succ k ih =>
    rw [exhaustAfter_succ]
    exact ih

end Slingshot

namespace Slingshot

/-- Invariant of the empty-start drop chain: after `k ≤ 13` drops, rows
`0..k-1` are fully covered by active red bubbles, all rows are `< k`, the
game is not over, and ids are distinct and below the counter. -/
theorem exhaust_invariant : ∀ k, k ≤ 13 →
    (∀ r : ℕ, r < k → ∀ c : ℕ, c < 12 → ∃ b ∈ (exhaustAfter k).bubbles,
        b.active = true ∧ b.row = (r : ℤ) ∧ b.col = (c : ℤ))
    ∧ (∀ b ∈ (exhaustAfter k).bubbles, 0 ≤ b.row ∧ b.row < (k : ℤ)
        ∧ b.color = Color.red ∧ b.y.toReal ≤ 594)
    ∧ (exhaustAfter k).gameOver = false
    ∧ ((exhaustAfter k).bubbles.map Bubble.id).Nodup
    ∧ (∀ b ∈ (exhaustAfter k).bubbles, b.id < (exhaustAfter k).nextId) := by
  intro k
  induction k with
  | zero =>
    intro _
    refine ⟨?_, ?_, rfl, ?_, ?_⟩
    · intro r hr
      exact absurd hr (Nat.not_lt_zero r)
    · intro b hb
      rw [show (exhaustAfter 0).bubbles = [] from rfl] at hb
      cases hb
    · rw [show (exhaustAfter 0).bubbles = [] from rfl]
      exact List.nodup_nil
    · intro b hb
      rw [show (exhaustAfter 0).bubbles = [] from rfl] at hb
      cases hb
  | succ k ih =>
    intro hk13
    obtain ⟨hcov, hbound, hgo, hnd, hid⟩ := ih (by omega)
    rw [exhaustAfter_succ]
    have hh : (exhaustAfter k).height = 1000 := exhaustAfter_height k
    have hbub : (dropCeiling (fun _ => Color.red) (exhaustAfter k)).bubbles
        = (List.range GRID_COLS).map (fun c =>
            { id := (exhaustAfter k).nextId + c, row := 0, col := (c : ℤ),
              x := (getBubblePos 0 c (exhaustAfter k).width).1,
              y := (getBubblePos 0 c (exhaustAfter k).width).2,
              color := Color.red, active := true : Bubble })
          ++ (exhaustAfter k).bubbles.map (shiftBubble (exhaustAfter k).width) := rfl
    have hmemfacts : ∀ b ∈ (dropCeiling (fun _ => Color.red) (exhaustAfter k)).bubbles,
        0 ≤ b.row ∧ b.row < ((k + 1 : ℕ) : ℤ) ∧ b.color = Color.red ∧ b.y.toReal ≤ 594 := by
      intro b hb
      rw [hbub] at hb
      rcases List.mem_append.mp hb with hb | hb
      · rcases List.mem_map.mp hb with ⟨c, hc, hcb⟩
        rw [← hcb]
        refine ⟨le_refl 0, by push_cast; omega, rfl, ?_⟩
        show (⟨BUBBLE_RADIUS, BUBBLE_RADIUS * ((0 : ℤ) : ℚ)⟩ : Q3).toReal ≤ 594
        unfold Q3.toReal BUBBLE_RADIUS
        push_cast
        norm_num
      · rcases List.mem_map.mp hb with ⟨b0, hb0, hcb⟩
        obtain ⟨h00, h01, h02, h03⟩ := hbound b0 hb0
        rw [← hcb]
        refine ⟨?_, ?_, h02, ?_⟩
        · show 0 ≤ b0.row + 1
          omega
        · show b0.row + 1 < ((k + 1 : ℕ) : ℤ)
          push_cast
          omega
        · rw [shiftBubble_y]
          unfold Q3.toReal BUBBLE_RADIUS
          have hrow13 : ((b0.row + 1 : ℤ) : ℚ) ≤ 13 := by
            have : b0.row + 1 ≤ 13 := by omega
            exact_mod_cast this
          have hrow0 : (0 : ℚ) ≤ ((b0.row + 1 : ℤ) : ℚ) := by
            have : (0 : ℤ) ≤ b0.row + 1 := by omega
            exact_mod_cast this
          have hrow13' : (((b0.row + 1 : ℤ) : ℚ) : ℝ) ≤ 13 := by exact_mod_cast hrow13
          have hrow0' : (0:ℝ) ≤ (((b0.row + 1 : ℤ) : ℚ) : ℝ) := by exact_mod_cast hrow0
          push_cast
          push_cast at hrow13' hrow0'
          nlinarith [sqrt3_le_two, Real.sqrt_nonneg 3]
    have hgonew : (dropCeiling (fun _ => Color.red) (exhaustAfter k)).gameOver = false := by
      apply dropCeiling_gameOver_false _ _ hgo
      · unfold anchorY SLINGSHOT_BOTTOM_OFFSET
        rw [hh]
        norm_num
      · intro b hb
        refine le_trans (hmemfacts b hb).2.2.2 ?_
        unfold anchorY SLINGSHOT_BOTTOM_OFFSET
        rw [hh]
        norm_num
    refine ⟨?_, hmemfacts, hgonew, ?_, ?_⟩
    · intro r hr c hc
      cases r with
      | zero =>
        refine ⟨{ id := (exhaustAfter k).nextId + c, row := 0, col := (c : ℤ),
                  x := (getBubblePos 0 c (exhaustAfter k).width).1,
                  y := (getBubblePos 0 c (exhaustAfter k).width).2,
                  color := Color.red, active := true }, ?_, rfl, rfl, rfl⟩
        rw [hbub]
        exact List.mem_append_left _ (List.mem_map_of_mem _ (List.mem_range.mpr hc))
      | succ r2 =>
        obtain ⟨b0, hb0, hact, hrow, hcol⟩ := hcov r2 (by omega) c hc
        refine ⟨shiftBubble (exhaustAfter k).width b0, ?_, hact, ?_, hcol⟩
        · rw [hbub]
          exact List.mem_append_right _ (List.mem_map_of_mem _ hb0)
        · show b0.row + 1 = ((r2 + 1 : ℕ) : ℤ)
          push_cast
          omega
    · rw [hbub, List.map_append, List.nodup_append]
      refine ⟨?_, ?_, ?_⟩
      · rw [List.map_map]
        refine (List.nodup_range _).map ?_
        intro a b hab
        simp only [Function.comp_apply] at hab
        omega
      · rw [List.map_map]
        have hfg : (Bubble.id ∘ shiftBubble (exhaustAfter k).width) = Bubble.id := rfl
        rw [hfg]
        exact hnd
      · intro a ha hb
        rw [List.map_map] at ha hb
        rcases List.mem_map.mp ha with ⟨c, hc, hca⟩
        rcases List.mem_map.mp hb with ⟨b0, hb0, hcb⟩
        have h1 : a = (exhaustAfter k).nextId + c := hca.symm
        have h2 : a = b0.id := hcb.symm
        have := hid b0 hb0
        omega
    · intro b hb
      rw [hbub] at hb
      show b.id < (exhaustAfter k).nextId + GRID_COLS
      rcases List.mem_append.mp hb with hb | hb
      · rcases List.mem_map.mp hb with ⟨c, hc, hcb⟩
        have h1 : b.id = (exhaustAfter k).nextId + c := by rw [← hcb]
        have h2 : c < 12 := List.mem_range.mp hc
        unfold GRID_COLS
        omega
      · rcases List.mem_map.mp hb with ⟨b0, hb0, hcb⟩
        have h1 : b.id = b0.id := by rw [← hcb]; rfl
        have := hid b0 hb0
        unfold GRID_COLS
        omega

end Slingshot

namespace Slingshot

/-- After 13 drops from the empty grid every cell of the landing scan window
holds an active bubble: the window is exhausted. -/
theorem exhaust13_occupied : ∀ rc ∈ windowCells, cellOccupied (exhaustAfter 13) rc.1 rc.2 = true := by
  intro rc hrc
  unfold windowCells at hrc
  rcases List.mem_flatMap.mp hrc with ⟨r, hr, hrr⟩
  rcases List.mem_map.mp hrr with ⟨c, hc, hcb⟩
  have hr13 : r < 13 := List.mem_range.mp hr
  have hcn := List.mem_range.mp hc
  have hc12 : c < 12 := by
    by_cases hodd : r % 2 ≠ 0
    · rw [if_pos hodd] at hcn
      unfold GRID_COLS at hcn
      omega
    · rw [if_neg hodd] at hcn
      unfold GRID_COLS at hcn
      omega
  obtain ⟨b, hb, hact, hrow, hcol⟩ := (exhaust_invariant 13 (le_refl _)).1 r hr13 c hc12
  rw [← hcb]
  exact (cellOccupied_iff _ _ _).mpr ⟨b, hb, hact, hrow, hcol⟩

/-- The landed shot on the exhausted grid (collision position and color are
arbitrary; exhaustion makes them irrelevant). -/
def exhaustShot : GameState := landShot (Q3.ofRat 300) (Q3.ofRat 520) Color.blue (exhaustAfter 13)

theorem exhaustShot_eq :
    exhaustShot = { exhaustAfter 13 with
      bubbles := (exhaustAfter 13).bubbles ++ [fallbackBubble (exhaustAfter 13) Color.blue],
      nextId := (exhaustAfter 13).nextId + 1 } := by
  unfold exhaustShot landShot
  rw [pushLanded_none _ _ _ _ (findLandingCell_none _ _ _ exhaust13_occupied)]
  dsimp only
  rw [checkMatches_no_other _ _ ?hseed ?hnd ?hno]
  case hseed =>
    exact List.mem_append_right _ (List.mem_singleton.mpr rfl)
  case hnd =>
    show ((((exhaustAfter 13).bubbles ++ [fallbackBubble (exhaustAfter 13) Color.blue]).map Bubble.id)).Nodup
    rw [List.map_append, List.nodup_append]
    refine ⟨(exhaust_invariant 13 (le_refl _)).2.2.2.1, by simp, ?_⟩
    intro a ha hb
    rcases List.mem_map.mp ha with ⟨b0, hb0, hab⟩
    have h1 := (exhaust_invariant 13 (le_refl _)).2.2.2.2 b0 hb0
    simp only [List.map_cons, List.map_nil, List.mem_singleton] at hb
    have h2 : a = (exhaustAfter 13).nextId := hb
    omega
  case hno =>
    intro b hb hcol
    rcases List.mem_append.mp hb with hb | hb
    · have := ((exhaust_invariant 13 (le_refl _)).2.1 b hb).2.2.1
      rw [this] at hcol
      cases hcol
    · rw [List.mem_singleton.mp hb]

theorem exhaustAfter13_gameOver_false : (exhaustAfter 13).gameOver = false :=
  (exhaust_invariant 13 (le_refl _)).2.2.1

/-- **C3** (counterexample): the exhaustion state is reachable — an empty
initial grid, 13 timed ceiling drops (none of which triggers game over on
the 1000-high field), then one landed shot — and after that landing two
distinct active bubbles (the dropped row-0 bubble and the fallback-placed
shot) occupy the same cell `(0, 0)`. -/
theorem c3_unique_cells_counterexample :
    Reach exhaustShot ∧ ¬ UniqueActiveCells exhaustShot := by
  constructor
  · have hreach : ∀ k, k ≤ 13 → Reach (exhaustAfter k) := by
      intro k
      induction k with
      | zero =>
        intro _
        exact Reach.init 600 1000 (fun _ _ => false) (fun _ _ => Color.red)
      | succ k ih =>
        intro hk
        rw [exhaustAfter_succ]
        exact Reach.drop _ _ (ih (by omega)) (exhaust_invariant k (by omega)).2.2.1
    exact Reach.land _ _ _ _ (hreach 13 (le_refl _)) exhaustAfter13_gameOver_false
  · intro huniq
    rw [exhaustShot_eq] at huniq
    unfold UniqueActiveCells at huniq
    dsimp only at huniq
    have hcross := (List.pairwise_append.mp huniq).2.2
    obtain ⟨b, hb, hact, hrow, hcol⟩ :=
      (exhaust_invariant 13 (le_refl _)).1 0 (by omega) 0 (by omega)
    have hcd := hcross b hb (fallbackBubble (exhaustAfter 13) Color.blue)
      (List.mem_singleton.mpr rfl) hact rfl
    apply hcd
    rw [Prod.mk.injEq]
    exact ⟨by rw [hrow]; rfl, by rw [hcol]; rfl⟩

/-- **C3** (amended): cell uniqueness is preserved by every mutating
operation — grid initialization, ceiling advance, cluster pop, and every
landing placement made while the scan window still has an empty cell.  On
boundary exhaustion (see the counterexample) the landing places the fallback
cell `(0,0)` even if occupied, which is the only way uniqueness breaks. -/
theorem c3_unique_cells_preserved (s : GameState) (h : ReachSafe s) :
    UniqueActiveCells s :=
  (reachSafe_invariant s h).1

/-- Witness for the amended C3: a freshly initialized grid is reachable
without exhaustion, and satisfies cell uniqueness. -/
theorem c3_unique_cells_witness :
    UniqueActiveCells (initGrid 600 620 (fun _ _ => false) (fun _ _ => Color.red)) :=
  c3_unique_cells_preserved _ (ReachSafe.init 600 620 (fun _ _ => false) (fun _ _ => Color.red))

/-- **C2** (against the claim): on boundary exhaustion — every cell of scan
rows 0..12 occupied — the landing resolution does NOT drop the shot: the
uninitialized defaults `bestRow = bestCol = 0`, `bestX = bestY = 0` survive
the scan, and a new active bubble is pushed at cell `(0,0)` with pixel
position `(0,0)`, a cell that already holds an active bubble. -/
theorem c2_exhaustion_places_at_origin :
    (∀ rc ∈ windowCells, cellOccupied (exhaustAfter 13) rc.1 rc.2 = true)
    ∧ exhaustShot.bubbles
        = (exhaustAfter 13).bubbles ++ [fallbackBubble (exhaustAfter 13) Color.blue]
    ∧ (∃ b ∈ (exhaustAfter 13).bubbles, b.active = true ∧ b.row = 0 ∧ b.col = 0)
    ∧ (fallbackBubble (exhaustAfter 13) Color.blue).active = true
    ∧ (fallbackBubble (exhaustAfter 13) Color.blue).row = 0
    ∧ (fallbackBubble (exhaustAfter 13) Color.blue).col = 0
    ∧ (fallbackBubble (exhaustAfter 13) Color.blue).x = Q3.ofRat 0
    ∧ (fallbackBubble (exhaustAfter 13) Color.blue).y = Q3.ofRat 0 := by
  refine ⟨exhaust13_occupied, ?_, ?_, rfl, rfl, rfl, rfl, rfl⟩
  · rw [exhaustShot_eq]
  · obtain ⟨b, hb, hact, hrow, hcol⟩ :=
      (exhaust_invariant 13 (le_refl _)).1 0 (by omega) 0 (by omega)
    exact ⟨b, hb, hact, by rw [hrow]; rfl, by rw [hcol]; rfl⟩

end Slingshot

namespace Slingshot

/-! ## `isPathClear` sampling count (support for C9) -/

theorem Q3.sub_def (x y : Q3) : x - y = ⟨x.a - y.a, x.b - y.b⟩ := rfl

theorem Q3.add_def (x y : Q3) : x + y = ⟨x.a + y.a, x.b + y.b⟩ := rfl

theorem Q3.mul_def (x y : Q3) :
    x * y = ⟨x.a * y.a + 3 * x.b * y.b, x.a * y.b + x.b * y.a⟩ := rfl

theorem sqrt3_gt : (1.7 : ℝ) < Real.sqrt 3 := by
  nlinarith [Real.sq_sqrt ((by norm_num : (0:ℝ) ≤ 3)), Real.sqrt_nonneg 3,
    sq_nonneg (Real.sqrt 3 - 1.7)]

theorem Q3.toReal_le_ratBound (x : Q3) : x.toReal ≤ ((Q3.ratBound x : ℚ) : ℝ) := by
  unfold Q3.toReal Q3.ratBound
  push_cast
  have h1 : (x.b : ℝ) * Real.sqrt 3 ≤ |(x.b : ℝ)| * Real.sqrt 3 :=
    mul_le_mul_of_nonneg_right (le_abs_self _) (Real.sqrt_nonneg 3)
  have h2 : |(x.b : ℝ)| * Real.sqrt 3 ≤ |(x.b : ℝ)| * 2 :=
    mul_le_mul_of_nonneg_left sqrt3_le_two (abs_nonneg _)
  linarith

theorem searchUp_spec (P : ℕ → Bool) :
    ∀ (fuel start : ℕ), (∃ m, m < fuel ∧ P (start + m) = true) →
    P (searchUp P start fuel) = true
    ∧ (∀ k, start ≤ k → k < searchUp P start fuel → P k = false)
    ∧ start ≤ searchUp P start fuel := by
  intro fuel
  induction fuel with
  | zero =>
    rintro start ⟨m, hm, _⟩
    omega
  | succ fuel ih =>
    rintro start ⟨m, hm, hPm⟩
    by_cases hP : P start = true
    · rw [searchUp, if_pos hP]
      exact ⟨hP, fun k h1 h2 => absurd h1 (by omega), le_refl _⟩
    · rw [searchUp, if_neg hP]
      have hm0 : m ≠ 0 := by
        intro h
        rw [h, Nat.add_zero] at hPm
        exact hP hPm
      have hrec := ih (start + 1) ⟨m - 1, by omega, by
        have : start + 1 + (m - 1) = start + m := by omega
        rw [this]
        exact hPm⟩
      refine ⟨hrec.1, ?_, by omega⟩
      intro k hk1 hk2
      rcases Nat.eq_or_lt_of_le hk1 with heq | hlt
      · rw [← heq]
        exact Bool.eq_false_iff.mpr hP
      · exact hrec.2.1 k (by omega) hk2

/-- The check that `ceilSteps` searches for, as a real inequality. -/
theorem ceilSteps_P_iff (sSq : Q3) (n : ℕ) :
    (decide (sSq ≤ Q3.ofRat (((11 * n : ℕ) : ℚ) ^ 2)) = true)
      ↔ sSq.toReal ≤ ((11 * n : ℕ) : ℝ) ^ 2 := by
  rw [decide_eq_true_eq, Q3.le_iff, Q3.toReal_ofRat]
  constructor
  · intro h
    refine le_trans h (le_of_eq ?_)
    push_cast
    ring
  · intro h
    refine le_trans h (le_of_eq ?_)
    push_cast
    ring

theorem ceilSteps_spec (sSq : Q3) (hnn : 0 ≤ sSq.toReal) :
    sSq.toReal ≤ ((11 * ceilSteps sSq : ℕ) : ℝ) ^ 2
    ∧ ∀ k < ceilSteps sSq, ¬ sSq.toReal ≤ ((11 * k : ℕ) : ℝ) ^ 2 := by
  have hq0 : (0 : ℚ) ≤ Q3.ratBound sSq := by
    have := le_trans hnn (Q3.toReal_le_ratBound sSq)
    exact_mod_cast this
  have hPq : decide (sSq ≤ Q3.ofRat (((11 * (Int.ceil (Q3.ratBound sSq)).toNat : ℕ) : ℚ) ^ 2))
      = true := by
    rw [ceilSteps_P_iff]
    set q := (Int.ceil (Q3.ratBound sSq)).toNat with hq
    have h1 : ((Q3.ratBound sSq : ℚ) : ℝ) ≤ (q : ℝ) := by
      have h2 : Q3.ratBound sSq ≤ (q : ℚ) := by
        rw [hq]
        have h3 : (((Int.ceil (Q3.ratBound sSq)).toNat : ℤ) : ℚ) = ((Int.ceil (Q3.ratBound sSq) : ℤ) : ℚ) := by
          congr 1
          exact Int.toNat_of_nonneg (Int.ceil_nonneg hq0)
        calc Q3.ratBound sSq ≤ ((Int.ceil (Q3.ratBound sSq) : ℤ) : ℚ) := Int.le_ceil _
          _ = (((Int.ceil (Q3.ratBound sSq)).toNat : ℤ) : ℚ) := h3.symm
          _ = ((Int.ceil (Q3.ratBound sSq)).toNat : ℚ) := by push_cast; rfl
      exact_mod_cast h2
    have h4 : (q : ℝ) ≤ ((11 * q : ℕ) : ℝ) ^ 2 := by
      have h5 : q ≤ (11 * q) ^ 2 := by nlinarith [Nat.zero_le q]
      calc (q : ℝ) ≤ (((11 * q) ^ 2 : ℕ) : ℝ) := by exact_mod_cast h5
        _ = ((11 * q : ℕ) : ℝ) ^ 2 := by push_cast; ring
    exact le_trans (le_trans (Q3.toReal_le_ratBound sSq) h1) h4
  have hsp := searchUp_spec (fun n => decide (sSq ≤ Q3.ofRat (((11 * n : ℕ) : ℚ) ^ 2)))
    ((Int.ceil (Q3.ratBound sSq)).toNat + 1) 0
    ⟨(Int.ceil (Q3.ratBound sSq)).toNat, by omega, by
      rw [Nat.zero_add]
      exact hPq⟩
  refine ⟨?_, ?_⟩
  · have := hsp.1
    rw [ceilSteps_P_iff] at this
    exact this
  · intro k hk
    have := hsp.2.1 k (Nat.zero_le k) hk
    intro hcon
    rw [Bool.eq_false_iff] at this
    exact this ((ceilSteps_P_iff sSq k).mpr hcon)

/-- `ceilSteps` computes `Math.ceil (sqrt sSq / (BUBBLE_RADIUS / 2))`. -/
theorem ceilSteps_eq_ceil (sSq : Q3) (hnn : 0 ≤ sSq.toReal) :
    (ceilSteps sSq : ℤ) = Int.ceil (Real.sqrt sSq.toReal / 11) := by
  obtain ⟨hP, hleast⟩ := ceilSteps_spec sSq hnn
  symm
  rw [Int.ceil_eq_iff]
  constructor
  · rcases Nat.eq_zero_or_pos (ceilSteps sSq) with h0 | hpos
    · rw [h0]
      have hz : sSq.toReal = 0 := by
        rw [h0] at hP
        have h1 : ((11 * 0 : ℕ) : ℝ) ^ 2 = 0 := by norm_num
        rw [h1] at hP
        linarith
      rw [hz, Real.sqrt_zero]
      norm_num
    · have hnotP := hleast (ceilSteps sSq - 1) (by omega)
      push_neg at hnotP
      have hlt : ((11 * (ceilSteps sSq - 1) : ℕ) : ℝ) < Real.sqrt sSq.toReal := by
        rw [show ((11 * (ceilSteps sSq - 1) : ℕ) : ℝ)
            = |((11 * (ceilSteps sSq - 1) : ℕ) : ℝ)| from (abs_of_nonneg (by positivity)).symm]
        apply lt_of_pow_lt_pow_left₀ 2 (Real.sqrt_nonneg _)
        rw [Real.sq_sqrt hnn]
        rw [abs_of_nonneg (by positivity : (0:ℝ) ≤ ((11 * (ceilSteps sSq - 1) : ℕ) : ℝ))]
        exact hnotP
      rw [lt_div_iff₀ (by norm_num : (0:ℝ) < 11)]
      have hcast : ((11 * (ceilSteps sSq - 1) : ℕ) : ℝ)
          = 11 * ((ceilSteps sSq : ℕ) : ℝ) - 11 := by
        push_cast [Nat.cast_sub hpos]
        ring
      rw [hcast] at hlt
      push_cast
      linarith
  · have hle : Real.sqrt sSq.toReal ≤ ((11 * ceilSteps sSq : ℕ) : ℝ) := by
      rw [show ((11 * ceilSteps sSq : ℕ) : ℝ)
          = Real.sqrt (((11 * ceilSteps sSq : ℕ) : ℝ) ^ 2) from (Real.sqrt_sq (by positivity)).symm]
      exact Real.sqrt_le_sqrt hP
    rw [div_le_iff₀ (by norm_num : (0:ℝ) < 11)]
    refine le_trans hle (le_of_eq ?_)
    push_cast
    ring

end Slingshot

namespace Slingshot

/-- Anchor→target straight-line data of `isPathClear`, under their source
names (`dx`, `dy`, squared distance, `steps`, and the `i`-th sample point). -/
def pathDx (s : GameState) (target : Bubble) : Q3 := target.x - Q3.ofRat (anchorX s)

def pathDy (s : GameState) (target : Bubble) : Q3 := target.y - Q3.ofRat (anchorY s)

def pathSq (s : GameState) (target : Bubble) : Q3 :=
  pathDx s target * pathDx s target + pathDy s target * pathDy s target

def pathSteps (s : GameState) (target : Bubble) : ℕ := ceilSteps (pathSq s target)

def sampleX (s : GameState) (target : Bubble) (i : ℕ) : Q3 :=
  Q3.ofRat (anchorX s) + pathDx s target * Q3.ofRat ((i : ℚ) / (pathSteps s target : ℚ))

def sampleY (s : GameState) (target : Bubble) (i : ℕ) : Q3 :=
  Q3.ofRat (anchorY s) + pathDy s target * Q3.ofRat ((i : ℚ) / (pathSteps s target : ℚ))

/-- `isPathClear` blocks exactly when some checked inner sample (indices
`1 ≤ i < steps - 2`) has another active bubble within `1.8 * BUBBLE_RADIUS`. -/
theorem isPathClear_false_iff (s : GameState) (target : Bubble) :
    isPathClear s target = false ↔
      ∃ i, 1 ≤ i ∧ i + 2 < pathSteps s target ∧ ∃ b ∈ s.bubbles, b.active = true
        ∧ b.id ≠ target.id
        ∧ distSqQ (sampleX s target i) (sampleY s target i) b.x b.y
            < Q3.ofRat ((BUBBLE_RADIUS * (18 / 10)) ^ 2) := by
  unfold isPathClear pathSteps pathSq pathDx pathDy sampleX sampleY
  dsimp only
  rw [List.all_eq_false]
  constructor
  · rintro ⟨i, hi, hp⟩
    rw [List.mem_range'_1] at hi
    rw [Bool.not_eq_true, List.all_eq_false] at hp
    rcases hp with ⟨b, hb, hbp⟩
    rw [Bool.not_eq_true, Bool.not_eq_false'] at hbp
    simp only [Bool.and_eq_true, bne_iff_ne, decide_eq_true_eq] at hbp
    refine ⟨i, hi.1, by omega, b, hb, hbp.1.1, hbp.1.2, hbp.2⟩
  · rintro ⟨i, hi1, hi2, b, hb, hact, hne, hdist⟩
    refine ⟨i, ?_, ?_⟩
    · rw [List.mem_range'_1]
      omega
    · rw [Bool.not_eq_true, List.all_eq_false]
      refine ⟨b, hb, ?_⟩
      rw [Bool.not_eq_true, Bool.not_eq_false']
      simp only [Bool.and_eq_true, bne_iff_ne, decide_eq_true_eq]
      exact ⟨⟨hact, hne⟩, hdist⟩

end Slingshot

namespace Slingshot

/-- C9 scenario: target bubble at cell (1,5) — directly above the anchor of a
600×620 field — and a blocker of a different color at (5,5), on the line. -/
def c9Target : Bubble :=
  { id := 0, row := 1, col := 5, x := (getBubblePos 1 5 600).1,
    y := (getBubblePos 1 5 600).2, color := .red, active := true }

def c9Blocker : Bubble :=
  { id := 1, row := 5, col := 5, x := (getBubblePos 5 5 600).1,
    y := (getBubblePos 5 5 600).2, color := .blue, active := true }

def c9State : GameState :=
  { bubbles := [c9Target, c9Blocker], score := 0, gameOver := false,
    nextId := 2, width := 600, height := 620 }

theorem c9_pathSq_value : pathSq c9State c9Target = ⟨144336, -16632⟩ := by
  unfold pathSq pathDx pathDy c9State c9Target getBubblePos anchorX anchorY
  norm_num [Q3.sub_def, Q3.mul_def, Q3.add_def, Q3.ofRat, Q3.mk.injEq,
    BUBBLE_RADIUS, GRID_COLS, SLINGSHOT_BOTTOM_OFFSET]

theorem c9_sq_toReal : (⟨144336, -16632⟩ : Q3).toReal = 144336 - 16632 * Real.sqrt 3 := by
  unfold Q3.toReal
  push_cast
  ring

theorem c9_steps_value : pathSteps c9State c9Target = 31 := by
  unfold pathSteps
  rw [c9_pathSq_value]
  have hnn : (0:ℝ) ≤ (⟨144336, -16632⟩ : Q3).toReal := by
    rw [c9_sq_toReal]
    nlinarith [sqrt3_le_two]
  obtain ⟨hP, hleast⟩ := ceilSteps_spec _ hnn
  rw [c9_sq_toReal] at hP
  by_contra hne
  rcases Nat.lt_or_ge (ceilSteps (⟨144336, -16632⟩ : Q3)) 31 with hlt | hge
  · have h30 : ((ceilSteps (⟨144336, -16632⟩ : Q3) : ℕ) : ℝ) ≤ 30 := by
      exact_mod_cast Nat.le_of_lt_succ hlt
    have hc0 : (0:ℝ) ≤ ((ceilSteps (⟨144336, -16632⟩ : Q3) : ℕ) : ℝ) := Nat.cast_nonneg _
    have hsqb : ((11 * ceilSteps (⟨144336, -16632⟩ : Q3) : ℕ) : ℝ) ^ 2 ≤ 108900 := by
      push_cast
      nlinarith [h30, hc0]
    nlinarith [sqrt3_le_two, hP, hsqb]
  · have h32 : 31 < ceilSteps (⟨144336, -16632⟩ : Q3) := by omega
    have hl := hleast 31 h32
    rw [c9_sq_toReal] at hl
    apply hl
    push_cast
    nlinarith [sqrt3_gt]

theorem c9_sampleX_value : sampleX c9State c9Target 17 = ⟨300, 0⟩ := by
  unfold sampleX pathDx
  rw [c9_steps_value]
  unfold c9State c9Target getBubblePos anchorX
  norm_num [Q3.sub_def, Q3.mul_def, Q3.add_def, Q3.ofRat, Q3.mk.injEq,
    BUBBLE_RADIUS, GRID_COLS]

theorem c9_sampleY_value : sampleY c9State c9Target 17 = ⟨5974/31, 374/31⟩ := by
  unfold sampleY pathDy
  rw [c9_steps_value]
  unfold c9State c9Target getBubblePos anchorY
  norm_num [Q3.sub_def, Q3.mul_def, Q3.add_def, Q3.ofRat, Q3.mk.injEq,
    BUBBLE_RADIUS, SLINGSHOT_BOTTOM_OFFSET]

/-- **C9.** `isPathClear` samples `ceil(distance / (BUBBLE_RADIUS/2))`
points on the anchor→target segment, skips the samples nearest the endpoints
(`i = 0` and `i ≥ steps - 2`), and returns `false` exactly when some other
active bubble sits within `1.8 * BUBBLE_RADIUS` of a checked sample; in the
concrete scenario a different-colored active bubble directly on the line
blocks the shot. -/
theorem c9_isPathClear_spec :
    (∀ (s : GameState) (target : Bubble),
      (pathSteps s target : ℤ) = Int.ceil (Real.sqrt (pathSq s target).toReal / 11)
      ∧ (isPathClear s target = false ↔
          ∃ i, 1 ≤ i ∧ i + 2 < pathSteps s target ∧ ∃ b ∈ s.bubbles, b.active = true
            ∧ b.id ≠ target.id
            ∧ distSqQ (sampleX s target i) (sampleY s target i) b.x b.y
                < Q3.ofRat ((BUBBLE_RADIUS * (18 / 10)) ^ 2)))
    ∧ isPathClear c9State c9Target = false := by
  constructor
  · intro s target
    constructor
    · unfold pathSteps
      apply ceilSteps_eq_ceil
      unfold pathSq
      rw [Q3.toReal_add, Q3.toReal_mul, Q3.toReal_mul]
      exact add_nonneg (mul_self_nonneg _) (mul_self_nonneg _)
    · exact isPathClear_false_iff s target
  · rw [isPathClear_false_iff]
    refine ⟨17, by norm_num, by rw [c9_steps_value]; norm_num, c9Blocker,
      List.mem_cons_of_mem _ (List.mem_singleton.mpr rfl), rfl, by norm_num [c9Blocker, c9Target], ?_⟩
    rw [c9_sampleX_value, c9_sampleY_value]
    have hval : distSqQ (⟨300, 0⟩ : Q3) (⟨5974/31, 374/31⟩ : Q3) c9Blocker.x c9Blocker.y
        = ⟨55657152/961, -32133024/961⟩ := by
      unfold distSqQ c9Blocker getBubblePos
      norm_num [Q3.sub_def, Q3.mul_def, Q3.add_def, Q3.ofRat, Q3.mk.injEq,
        BUBBLE_RADIUS, GRID_COLS]
    rw [hval, Q3.lt_iff, Q3.toReal_ofRat]
    unfold Q3.toReal
    push_cast
    norm_num [BUBBLE_RADIUS]
    nlinarith [sqrt3_gt]

end Slingshot
